import Mathlib

/-!
Shallow embedding of `backend/services/advanced_analyzer.py` from the
Real-Time-Log-Anomaly-Detection repository, together with proofs about the
specification's claims on that module.

Python strings are modelled as `List Char`, Python floats as `ℚ` (the module
only performs field arithmetic, `min`/`max`, comparisons and `np.var`, all of
which are exact here), Python byte strings as `List (Fin 256)`.  Mutable
objects are modelled as state-passing functions.  `datetime.now()` timestamps
are dropped from the state: they are write-only diagnostic strings that no
code path reads back.
-/

/-! ## Python string primitives -/

/-- The characters Python's `str.strip()` removes (`str.isspace`), restricted
to the code points that can actually appear in decoded Latin-1/ASCII-range
text: space, `\t`, `\n`, `\r`, `\x0b`, `\x0c`, the file/group/record/unit
separators `\x1c`-`\x1f`, next-line `\x85` and no-break space `\xa0`.
Note that `\x00` is *not* whitespace in Python. -/
def isPySpace (c : Char) : Bool :=
  c = ' ' || c = '\t' || c = '\n' || c = '\r' || c = '\x0b' || c = '\x0c' ||
  c = '\x1c' || c = '\x1d' || c = '\x1e' || c = '\x1f' || c = '\x85' || c = '\xa0'

/-- Python `line.strip()`: drop leading and trailing whitespace. -/
def pyStrip (l : List Char) : List Char :=
  ((l.dropWhile isPySpace).reverse.dropWhile isPySpace).reverse

/-- Python `content.split(sep)` for a one-character separator:
`"".split(c) = [""]`, separators delimit (possibly empty) fields. -/
def pySplit (sep : Char) : List Char → List (List Char)
  | [] => [[]]
  | c :: rest =>
    match pySplit sep rest with
    | [] => [[c]]
    | cur :: parts => if c = sep then [] :: cur :: parts else (c :: cur) :: parts

/-- Python `sep.join(parts)` for a one-character separator. -/
def pyJoin (sep : Char) : List (List Char) → List Char
  | [] => []
  | [l] => l
  | l :: l2 :: rest => l ++ sep :: pyJoin sep (l2 :: rest)

/-- Python `needle in haystack` substring test (`"" in s` is `True`). -/
def hasSubstr (needle : List Char) : List Char → Bool
  | [] => needle.isEmpty
  | c :: rest => needle.isPrefixOf (c :: rest) || hasSubstr needle rest

/-- Python `line.lower()` (ASCII case folding; the module only compares
against ASCII keywords). -/
def pyLower (l : List Char) : List Char := l.map Char.toLower

/-! ## NoiseRobustParser -/

/-- Per-parse corruption metadata (`corruption_stats` dict in
`NoiseRobustParser.parse_robust`). -/
structure CorruptionStats where
  total_lines : Nat
  corrupted_lines : Nat
  truncated_lines : Nat
  recovered_lines : Nat
  empty_lines : Nat
deriving DecidableEq

/-- The `binary` corruption pattern `[\x00-\x08\x0B-\x0C\x0E-\x1F]`:
control characters other than tab/newline/carriage-return. -/
def isBinaryCtrl (c : Char) : Bool :=
  decide (c.toNat ≤ 8) || decide (c.toNat = 11) || decide (c.toNat = 12) ||
  (decide (14 ≤ c.toNat) && decide (c.toNat ≤ 31))

/-- ASCII hexadecimal digit (`[0-9a-fA-F]`). -/
def isHexCh (c : Char) : Bool :=
  c.isDigit || ('a' ≤ c && c ≤ 'f') || ('A' ≤ c && c ≤ 'F')

/-- The `encoding_error` pattern `\\x[0-9a-fA-F]{2}` used with `.search`:
does the line contain a literal backslash, `x`, and two hex digits? -/
def hasEncErr : List Char → Bool
  | '\\' :: 'x' :: a :: b :: rest =>
      (isHexCh a && isHexCh b) || hasEncErr ('x' :: a :: b :: rest)
  | _ :: rest => hasEncErr rest
  | [] => false

/-- Did the `truncated` pattern fire on this line (the line contains a null
byte)? -/
def lineTrunc (line : List Char) : Bool := line.contains '\x00'

/-- The line after the null-byte repair (`line.replace('\x00', '')`, applied
only when the `truncated` pattern fired). -/
def lineNull (line : List Char) : List Char :=
  if lineTrunc line then line.filter (fun c => c != '\x00') else line

/-- Did the `binary` pattern fire (checked after the null repair)? -/
def lineBin (line : List Char) : Bool := (lineNull line).any isBinaryCtrl

/-- The line after both repairs (control-character removal applied only when
the `binary` pattern fired). -/
def repairLine (line : List Char) : List Char :=
  if lineBin line then (lineNull line).filter (fun c => !(isBinaryCtrl c))
  else lineNull line

/-- The `is_corrupted` flag: any of the three patterns fired (the
`encoding_error` pattern is checked on the repaired line). -/
def lineCorr (line : List Char) : Bool :=
  lineTrunc line || lineBin line || hasEncErr (repairLine line)

/-- `if line.strip():` after repair — is the line kept? -/
def lineKept (line : List Char) : Bool := !(pyStrip (repairLine line)).isEmpty

/-- The per-line loop of `NoiseRobustParser.parse_robust`, processed head
first (list order = Python iteration order; counters are commutative sums, so
accumulating through the recursion is equivalent to the imperative loop).
`total_lines` is `len(lines)` in the source; here it is accumulated one per
line, which yields the same number.

Per line: a line whose `strip()` is empty is counted in `empty_lines` and
skipped.  Otherwise the `truncated` pattern `.*\x00+.*` (which, on a
newline-free line, matches iff the line contains a null byte) triggers null
removal; the `binary` pattern triggers control-character removal; the
`encoding_error` pattern only sets the corruption flag.  A corrupted line that
is still non-blank counts as recovered; only lines non-blank after repair are
kept. -/
def parseLines : List (List Char) → List (List Char) × CorruptionStats
  | [] => ([], ⟨0, 0, 0, 0, 0⟩)
  | line :: rest =>
    let (cls, s) := parseLines rest
    if pyStrip line = [] then
      (cls, { s with total_lines := s.total_lines + 1,
                     empty_lines := s.empty_lines + 1 })
    else
      ((if lineKept line then repairLine line :: cls else cls),
       { total_lines := s.total_lines + 1,
         corrupted_lines := s.corrupted_lines + (if lineBin line then 1 else 0),
         truncated_lines := s.truncated_lines + (if lineTrunc line then 1 else 0),
         recovered_lines :=
           s.recovered_lines + (if lineCorr line && lineKept line then 1 else 0),
         empty_lines := s.empty_lines })

/-- UTF-8 continuation byte `10xxxxxx`. -/
def contByte (b : Nat) : Bool := decide (128 ≤ b) && decide (b ≤ 191)

/-- Strict UTF-8 decoding (Python `bytes.decode('utf-8')`): rejects overlong
encodings, surrogates and code points above `0x10FFFF`, exactly the sequences
CPython rejects.  Fuel is the number of bytes left, so it never runs out. -/
def utf8DecodeAux : Nat → List (Fin 256) → Option (List Char)
  | _, [] => some []
  | 0, _ :: _ => none
  | f + 1, b1 :: rest =>
    let v1 := b1.val
    if v1 ≤ 0x7F then
      (utf8DecodeAux f rest).map (fun cs => Char.ofNat v1 :: cs)
    else if 0xC2 ≤ v1 ∧ v1 ≤ 0xDF then
      match rest with
      | b2 :: rest2 =>
        if contByte b2.val then
          (utf8DecodeAux f rest2).map
            (fun cs => Char.ofNat ((v1 - 0xC0) * 64 + (b2.val - 0x80)) :: cs)
        else none
      | [] => none
    else if 0xE0 ≤ v1 ∧ v1 ≤ 0xEF then
      match rest with
      | b2 :: b3 :: rest3 =>
        let ok2 := if v1 = 0xE0 then decide (0xA0 ≤ b2.val) && decide (b2.val ≤ 0xBF)
                   else if v1 = 0xED then decide (0x80 ≤ b2.val) && decide (b2.val ≤ 0x9F)
                   else contByte b2.val
        if ok2 && contByte b3.val then
          (utf8DecodeAux f rest3).map
            (fun cs => Char.ofNat ((v1 - 0xE0) * 4096 + (b2.val - 0x80) * 64 +
                                   (b3.val - 0x80)) :: cs)
        else none
      | _ => none
    else if 0xF0 ≤ v1 ∧ v1 ≤ 0xF4 then
      match rest with
      | b2 :: b3 :: b4 :: rest4 =>
        let ok2 := if v1 = 0xF0 then decide (0x90 ≤ b2.val) && decide (b2.val ≤ 0xBF)
                   else if v1 = 0xF4 then decide (0x80 ≤ b2.val) && decide (b2.val ≤ 0x8F)
                   else contByte b2.val
        if ok2 && contByte b3.val && contByte b4.val then
          (utf8DecodeAux f rest4).map
            (fun cs => Char.ofNat ((v1 - 0xF0) * 262144 + (b2.val - 0x80) * 4096 +
                                   (b3.val - 0x80) * 64 + (b4.val - 0x80)) :: cs)
        else none
      | _ => none
    else none

/-- Python `byte_content.decode('utf-8')` as a fallible function. -/
def utf8Decode (bs : List (Fin 256)) : Option (List Char) :=
  utf8DecodeAux bs.length bs

/-- `NoiseRobustParser._decode_robust`: try the fallback list
`['utf-8', 'latin-1', 'ascii', 'utf-16']` in order.  Latin-1 decoding of a
byte string never fails (every byte maps to the code point of its value), so
the chain reduces to: UTF-8 if it succeeds, else Latin-1; the `ascii`,
`utf-16` and `errors='ignore'` fallbacks are unreachable. -/
def decode_robust (bs : List (Fin 256)) : List Char :=
  match utf8Decode bs with
  | some cs => cs
  | none => bs.map (fun b => Char.ofNat b.val)

/-- Input to `parse_robust`/`analyze`: Python `str` or `bytes`. -/
inductive RawInput where
  | text (content : List Char)
  | bytes (content : List (Fin 256))

/-- `isinstance(content, bytes)` dispatch at the top of `parse_robust`. -/
def rawToText : RawInput → List Char
  | .text c => c
  | .bytes b => decode_robust b

/-- `NoiseRobustParser.parse_robust`: decode if necessary, split on `\n`,
process every line, and re-join the kept lines with `\n`. -/
def parse_robust (input : RawInput) : List Char × CorruptionStats :=
  let content := rawToText input
  let lines := pySplit '\n' content
  let (cls, s) := parseLines lines
  (pyJoin '\n' cls, s)

example : parse_robust (.text "ab\n\nc".toList) =
    ("ab\nc".toList, ⟨3, 0, 0, 0, 1⟩) := by decide

example : parse_robust (.text ['\x00']) = ([], ⟨1, 0, 1, 0, 0⟩) := by decide

/-! ## NoiseRobustParser.extract_patterns_robust

The four `re` patterns are compiled into deterministic scanners that realize
`findall` semantics: scan left to right, emit the leftmost match, continue
after its end, never overlap.  `\w` (for `\b` boundaries) is modelled as the
ASCII word class `[a-zA-Z0-9_]`. -/

/-- Python regex `\w` (ASCII range). -/
def isWordCh (c : Char) : Bool := c.isAlphanum || c = '_'

/-- ASCII decimal digit. -/
def isDigitCh (c : Char) : Bool := c.isDigit

/-- Number of leading characters satisfying `p`. -/
def leadRun (p : Char → Bool) : List Char → Nat
  | [] => 0
  | c :: rest => if p c then leadRun p rest + 1 else 0

/-- `\b` at the position right after a match / right before end-of-match:
true iff the next character is absent or a non-word character (all our
patterns end in a word character). -/
def noWordAhead : List Char → Bool
  | [] => true
  | c :: _ => !(isWordCh c)

/-- First length in `ks` that is at most `n` and passes `ok`, regex
backtracking over a greedy counted repetition. -/
def firstLen (ks : List Nat) (n : Nat) (ok : Nat → Option Nat) : Option Nat :=
  match ks with
  | [] => none
  | k :: rest =>
    if k ≤ n then
      match ok k with
      | some r => some r
      | none => firstLen rest n ok
    else firstLen rest n ok

/-- `(?:\d{1,3}\.){groups}\d{1,3}\b` with greedy backtracking; returns the
number of characters consumed. -/
def matchQuad (s : List Char) : Nat → Option Nat
  | 0 =>
    firstLen [3, 2, 1] (leadRun isDigitCh s) (fun k =>
      if 1 ≤ k ∧ noWordAhead (s.drop k) = true then some k else none)
  | groups + 1 =>
    firstLen [3, 2, 1] (leadRun isDigitCh s) (fun k =>
      if 1 ≤ k then
        match s.drop k with
        | '.' :: rest => (matchQuad rest groups).map (fun m => k + 1 + m)
        | _ => none
      else none)

/-- `ip_pattern = \b(?:\d{1,3}\.){3}\d{1,3}\b` at the current position
(leading `\b` is checked by the scanner). -/
def ipMatchAt (s : List Char) : Option Nat := matchQuad s 3

/-- `[-_]?\d{3,5}\b` with the optional separator tried greedily. -/
def errCodeTail (s : List Char) : Option Nat :=
  let digits := fun (u : List Char) =>
    firstLen [5, 4, 3] (leadRun isDigitCh u) (fun k =>
      if noWordAhead (u.drop k) = true then some k else none)
  match s with
  | c :: rest =>
    if c = '-' || c = '_' then
      match (digits rest).map (· + 1) with
      | some r => some r
      | none => digits s
    else digits s
  | [] => none

/-- `error_code_pattern = \b[A-Z]{2,5}[-_]?\d{3,5}\b` at the current
position. -/
def errCodeMatchAt (s : List Char) : Option Nat :=
  firstLen [5, 4, 3, 2] (leadRun (fun c => 'A' ≤ c && c ≤ 'Z') s) (fun a =>
    (errCodeTail (s.drop a)).map (a + ·))

/-- `severity_pattern = \b(FATAL|ERROR|WARN|WARNING|INFO|DEBUG|TRACE)\b` with
`re.IGNORECASE`; alternatives are tried in written order, each followed by the
`\b` check (so `WARN` loses to `WARNING` on the text `WARNING`). -/
def sevMatchAt (s : List Char) : Option Nat :=
  let words := [ "fatal".toList, "error".toList, "warn".toList,
                 "warning".toList, "info".toList, "debug".toList, "trace".toList ]
  words.findSome? (fun w =>
    if w.isPrefixOf (pyLower s) && noWordAhead (s.drop w.length) then
      some w.length
    else none)

/-- `timestamp_pattern`: four digits, dash-or-slash, two digits,
dash-or-slash, two digits, `[\sT]`, then `hh:mm:ss` (compiled with
`re.IGNORECASE`, so the literal `T` also matches `t`; `\s` is modelled by
`isPySpace`).  Entirely fixed-width: 19 characters, no backtracking. -/
def tsMatchAt (s : List Char) : Option Nat :=
  match s with
  | y1 :: y2 :: y3 :: y4 :: a :: m1 :: m2 :: b :: d1 :: d2 :: mid ::
    h1 :: h2 :: c1 :: n1 :: n2 :: c2 :: e1 :: e2 :: _ =>
    if isDigitCh y1 && isDigitCh y2 && isDigitCh y3 && isDigitCh y4 &&
       (a = '-' || a = '/') && isDigitCh m1 && isDigitCh m2 &&
       (b = '-' || b = '/') && isDigitCh d1 && isDigitCh d2 &&
       (isPySpace mid || mid = 'T' || mid = 't') &&
       isDigitCh h1 && isDigitCh h2 && c1 = ':' && isDigitCh n1 && isDigitCh n2 &&
       c2 = ':' && isDigitCh e1 && isDigitCh e2 then
      some 19
    else none
  | _ => none

/-- `findall` for a pattern without a leading `\b`: try the matcher at every
position left to right; on a match, emit it and continue right after it.
Fuel (initially the string length) only bounds the recursion; every step
consumes at least one character. -/
def scanPlain (m : List Char → Option Nat) : Nat → List Char → List (List Char)
  | 0, _ => []
  | _ + 1, [] => []
  | f + 1, c :: rest =>
    match m (c :: rest) with
    | some n => (c :: rest).take n :: scanPlain m f ((c :: rest).drop n)
    | none => scanPlain m f rest

/-- `findall` for a pattern with a leading `\b` whose first and last matched
characters are word characters (true of the IP, error-code and severity
patterns): a match can start at a position iff the preceding character is
absent or not a word character, and after a match the preceding character is a
word character. -/
def scanBound (m : List Char → Option Nat) : Nat → Bool → List Char → List (List Char)
  | 0, _, _ => []
  | _ + 1, _, [] => []
  | f + 1, prevWord, c :: rest =>
    match (if prevWord then none else m (c :: rest)) with
    | some n => (c :: rest).take n :: scanBound m f true ((c :: rest).drop n)
    | none => scanBound m f (isWordCh c) rest

/-- The per-call pattern record built by `extract_patterns_robust`. -/
structure PatternSet where
  timestamps : List (List Char)
  ip_addresses : List (List Char)
  error_codes : List (List Char)
  severity_levels : List (List Char)
deriving DecidableEq

/-- `timestamp_pattern.findall(line)`. -/
def tsFind (l : List Char) : List (List Char) := scanPlain tsMatchAt l.length l

/-- `ip_pattern.findall(line)`. -/
def ipFind (l : List Char) : List (List Char) := scanBound ipMatchAt l.length false l

/-- `error_code_pattern.findall(line)`. -/
def errFind (l : List Char) : List (List Char) := scanBound errCodeMatchAt l.length false l

/-- `severity_pattern.findall(line)` (the single capturing group covers the
whole match, so `findall` returns the matched text itself). -/
def sevFind (l : List Char) : List (List Char) := scanBound sevMatchAt l.length false l

/-- `NoiseRobustParser.extract_patterns_robust`: split into lines, skip blank
lines, and extend the four pattern lists with each line's matches in scan
order. -/
def extract_patterns_robust (content : List Char) : PatternSet :=
  let lines := (pySplit '\n' content).filter (fun l => !(pyStrip l).isEmpty)
  { timestamps := lines.flatMap tsFind,
    ip_addresses := lines.flatMap ipFind,
    error_codes := lines.flatMap errFind,
    severity_levels := lines.flatMap sevFind }

example : extract_patterns_robust "ERROR AB-1234 from 10.0.0.1 at 2024-01-02 03:04:05".toList =
    { timestamps := ["2024-01-02 03:04:05".toList],
      ip_addresses := ["10.0.0.1".toList],
      error_codes := ["AB-1234".toList],
      severity_levels := ["ERROR".toList] } := by decide

example : extract_patterns_robust "warning 1234.5.6.7 ABCDEF123".toList =
    { timestamps := [], ip_addresses := [], error_codes := [],
      severity_levels := ["warning".toList] } := by decide

/-! ## Statistics extraction (step 3 of `AdvancedLogAnalyzer.analyze`) -/

/-- The `stats` dict built in `analyze`: per-keyword line counts. -/
structure LogStats where
  total_lines : Nat
  error_count : Nat
  warning_count : Nat
  failed_count : Nat
  timeout_count : Nat
  ssh_count : Nat
  auth_count : Nat
  connection_count : Nat
  denied_count : Nat
  accepted_count : Nat
deriving DecidableEq

/-- Step 3 of `analyze`: split the cleaned content on `\n`; `total_lines`
counts lines with non-empty `strip()`, every other counter counts lines whose
lower-cased text contains the keyword. -/
def computeStats (cleaned : List Char) : LogStats :=
  let lines := pySplit '\n' cleaned
  let cnt := fun (kw : String) =>
    (lines.filter (fun l => hasSubstr kw.toList (pyLower l))).length
  { total_lines := (lines.filter (fun l => !(pyStrip l).isEmpty)).length,
    error_count := cnt "error",
    warning_count := cnt "warning",
    failed_count := cnt "failed",
    timeout_count := cnt "timeout",
    ssh_count := cnt "ssh",
    auth_count := cnt "auth",
    connection_count := cnt "connection",
    denied_count := cnt "denied",
    accepted_count := cnt "accepted" }

/-! ## AdaptiveHyperparameterOptimizer -/

/-- The `self.thresholds` dict.  Only `error_rate` is ever mutated; the other
entries (including the `severity_weights` sub-dict) are static configuration
that the module never reads back. -/
structure Thresholds where
  error_rate : ℚ
  warning_rate : ℚ
  anomaly_score : ℚ
  confidence_min : ℚ
  weight_critical : ℚ
  weight_high : ℚ
  weight_medium : ℚ
  weight_low : ℚ
deriving DecidableEq

/-- One entry of `self.threshold_history` (the `datetime.now()` timestamp is
dropped; nothing reads it). -/
structure ThresholdRecord where
  error_threshold : ℚ
  warning_threshold : ℚ
  error_rate_observed : ℚ
  warning_rate_observed : ℚ
deriving DecidableEq

/-- `AdaptiveHyperparameterOptimizer` instance state.  The three
`performance_metrics` deques (`maxlen=50`) and `threshold_history`
(`maxlen=100`) are stored newest first: `deque.append` is modelled by consing
and truncating, and Python's `list(d)[-10:]` (the newest ten) becomes
`take 10`. -/
structure OptimizerState where
  learning_rate : ℚ
  threshold_history : List ThresholdRecord
  precision_metrics : List ℚ
  recall_metrics : List ℚ
  f1_metrics : List ℚ
  thresholds : Thresholds
deriving DecidableEq

/-- `deque(maxlen=cap)` append, newest first. -/
def deqPush {α : Type} (cap : Nat) (x : α) (l : List α) : List α :=
  (x :: l).take cap

/-- `AdaptiveHyperparameterOptimizer.__init__`. -/
def initOptimizer : OptimizerState :=
  { learning_rate := 1/10,
    threshold_history := [],
    precision_metrics := [],
    recall_metrics := [],
    f1_metrics := [],
    thresholds :=
      { error_rate := 1/20, warning_rate := 1/10, anomaly_score := 3/4,
        confidence_min := 3/5, weight_critical := 1, weight_high := 3/4,
        weight_medium := 1/2, weight_low := 1/4 } }

/-- `max(log_stats.get('total_lines', 1), 1)` as a rational (the key is always
present in the dicts the module builds). -/
def totalEvents (stats : LogStats) : ℚ := ((max stats.total_lines 1 : Nat) : ℚ)

/-- The threshold-adjustment core of `optimize_thresholds`, given the observed
error and warning rates: the ratchet on `thresholds['error_rate']` plus the
history append.  (The `feedback` parameter of the Python method is unused
there.) -/
def optimizeWithRates (s : OptimizerState) (error_rate warning_rate : ℚ) :
    OptimizerState :=
  let thr := s.thresholds.error_rate
  let thr' :=
    if error_rate > thr * 2 then
      min (thr * (1 + s.learning_rate)) (1/5)
    else if error_rate < thr * (1/2) then
      max (thr * (1 - s.learning_rate)) (1/100)
    else thr
  { s with
    thresholds := { s.thresholds with error_rate := thr' },
    threshold_history :=
      deqPush 100 ⟨thr', s.thresholds.warning_rate, error_rate, warning_rate⟩
        s.threshold_history }

/-- `AdaptiveHyperparameterOptimizer.optimize_thresholds` (state part; the
Python method also returns `self.thresholds`, read off the result here). -/
def optimize_thresholds (s : OptimizerState) (stats : LogStats) : OptimizerState :=
  let total := totalEvents stats
  optimizeWithRates s ((stats.error_count : ℚ) / total)
    ((stats.warning_count : ℚ) / total)

/-- The four severity labels returned by `get_adaptive_severity`. -/
inductive Severity where
  | Low
  | Medium
  | High
  | Critical
deriving DecidableEq

/-- The classification tail of `get_adaptive_severity`. -/
def severityFromScore (severity_score : ℚ) : Severity × ℚ :=
  if severity_score > 3 then (.Critical, min (severity_score * (3/10)) 1)
  else if severity_score > 2 then (.High, min (severity_score * (1/4)) (19/20))
  else if severity_score > 1 then (.Medium, min (severity_score * (1/5)) (17/20))
  else (.Low, severity_score * (3/20))

/-- `AdaptiveHyperparameterOptimizer.get_adaptive_severity`. -/
def get_adaptive_severity (s : OptimizerState) (stats : LogStats) : Severity × ℚ :=
  let total := totalEvents stats
  let error_rate := (stats.error_count : ℚ) / total
  let warning_rate := (stats.warning_count : ℚ) / total
  let severity_score :=
    error_rate / s.thresholds.error_rate * (3/5) +
    warning_rate / s.thresholds.warning_rate * (2/5)
  severityFromScore severity_score

/-- The feedback record (`feedback_data.get('precision', 0.8)` defaults a
missing key). -/
structure Feedback where
  precision : Option ℚ
  «recall» : Option ℚ

/-- `np.var`: population variance, mean of squared deviations from the mean.
(Only ever applied to slices of length 10 in the source; the empty case is
unreachable there.) -/
def pvar (l : List ℚ) : ℚ :=
  if l.length = 0 then 0
  else
    let m := l.sum / (l.length : ℚ)
    (l.map (fun x => (x - m) ^ 2)).sum / (l.length : ℚ)

/-- `AdaptiveHyperparameterOptimizer.update_from_feedback`.  `None`/empty
feedback (`if feedback_data:`) leaves the state untouched.  Otherwise append
precision/recall/F1 to the bounded metric deques and, once *more than ten* F1
samples exist, adapt the learning rate from the population variance of the
newest ten. -/
def update_from_feedback (s : OptimizerState) (feedback : Option Feedback) :
    OptimizerState :=
  match feedback with
  | none => s
  | some fb =>
    let p := fb.precision.getD (4/5)
    let r := fb.«recall».getD (4/5)
    let f1 := if p + r > 0 then 2 * (p * r) / (p + r) else 0
    let s :=
      { s with precision_metrics := deqPush 50 p s.precision_metrics,
               recall_metrics := deqPush 50 r s.recall_metrics,
               f1_metrics := deqPush 50 f1 s.f1_metrics }
    if 10 < s.f1_metrics.length then
      let variance := pvar (s.f1_metrics.take 10)
      if variance < 1/100 then
        { s with learning_rate := max (1/20) (s.learning_rate * (19/20)) }
      else if variance > 1/20 then
        { s with learning_rate := min (1/4) (s.learning_rate * (11/10)) }
      else s
    else s

/-! ## ContinualLearningEngine -/

/-- One `pattern_memory` entry (the `last_seen` timestamp string is dropped;
nothing reads it). -/
structure PatternEntry where
  count : Nat
  anomaly_rate : ℚ
deriving DecidableEq

/-- Smoothed baseline values, one per statistic key.  The Python
`baseline_stats` dict is either empty or carries exactly the ten keys of a
`stats` dict, because `update_baseline` always receives a full `stats` dict;
the empty state is the `none` of the `Option` wrapper in `LearnerState`. -/
structure BaselineStats where
  total_lines : ℚ
  error_count : ℚ
  warning_count : ℚ
  failed_count : ℚ
  timeout_count : ℚ
  ssh_count : ℚ
  auth_count : ℚ
  connection_count : ℚ
  denied_count : ℚ
  accepted_count : ℚ
deriving DecidableEq

/-- `ContinualLearningEngine` instance state.  `pattern_memory` is an
insertion-ordered association list with unique keys (a Python dict);
`recent_patterns` is the `deque(maxlen=1000)` drift window, newest first;
`adaptation_history` keeps the last 100 baseline snapshots (list trimmed from
the front in Python, newest kept; stored newest first here). -/
structure LearnerState where
  pattern_memory : List (List Char × PatternEntry)
  baseline_stats : Option BaselineStats
  baseline_established : Bool
  recent_patterns : List (List Char × Bool)
  adaptation_history : List BaselineStats
deriving DecidableEq

/-- `ContinualLearningEngine.__init__`. -/
def initLearner : LearnerState :=
  { pattern_memory := [], baseline_stats := none, baseline_established := false,
    recent_patterns := [], adaptation_history := [] }

/-- Seeding a fresh baseline: every key absent, so `baseline_stats[key] =
value` for each of the ten statistics. -/
def seedBaseline (stats : LogStats) : BaselineStats :=
  { total_lines := stats.total_lines, error_count := stats.error_count,
    warning_count := stats.warning_count, failed_count := stats.failed_count,
    timeout_count := stats.timeout_count, ssh_count := stats.ssh_count,
    auth_count := stats.auth_count, connection_count := stats.connection_count,
    denied_count := stats.denied_count, accepted_count := stats.accepted_count }

/-- The EMA update `baseline[k] = alpha * value + (1 - alpha) * baseline[k]`
with `alpha = 0.3`, applied to every key. -/
def emaBaseline (b : BaselineStats) (stats : LogStats) : BaselineStats :=
  let ema := fun (v : Nat) (old : ℚ) => (3/10) * (v : ℚ) + (1 - 3/10) * old
  { total_lines := ema stats.total_lines b.total_lines,
    error_count := ema stats.error_count b.error_count,
    warning_count := ema stats.warning_count b.warning_count,
    failed_count := ema stats.failed_count b.failed_count,
    timeout_count := ema stats.timeout_count b.timeout_count,
    ssh_count := ema stats.ssh_count b.ssh_count,
    auth_count := ema stats.auth_count b.auth_count,
    connection_count := ema stats.connection_count b.connection_count,
    denied_count := ema stats.denied_count b.denied_count,
    accepted_count := ema stats.accepted_count b.accepted_count }

/-- `ContinualLearningEngine.update_baseline`. -/
def update_baseline (s : LearnerState) (stats : LogStats) : LearnerState :=
  let b' := match s.baseline_stats with
            | none => seedBaseline stats
            | some b => emaBaseline b stats
  { s with baseline_stats := some b',
           baseline_established := true,
           adaptation_history := deqPush 100 b' s.adaptation_history }

/-- The `(current, baseline)` pairs the drift loop ranges over: every key of
`current_stats` that is also in `baseline_stats` and is not `'total_lines'`. -/
def driftPairs (stats : LogStats) (b : BaselineStats) : List (ℚ × ℚ) :=
  [ ((stats.error_count : ℚ), b.error_count),
    ((stats.warning_count : ℚ), b.warning_count),
    ((stats.failed_count : ℚ), b.failed_count),
    ((stats.timeout_count : ℚ), b.timeout_count),
    ((stats.ssh_count : ℚ), b.ssh_count),
    ((stats.auth_count : ℚ), b.auth_count),
    ((stats.connection_count : ℚ), b.connection_count),
    ((stats.denied_count : ℚ), b.denied_count),
    ((stats.accepted_count : ℚ), b.accepted_count) ]

/-- `ContinualLearningEngine.detect_distribution_drift`: with no established
baseline return `(False, 0.0)`; otherwise average the relative differences
over the keys with positive baseline value and flag drift above `0.5`. -/
def detect_distribution_drift (s : LearnerState) (stats : LogStats) : Bool × ℚ :=
  if s.baseline_established = false then (false, 0)
  else
    match s.baseline_stats with
    | none => (false, 0)
    | some b =>
      let acc := (driftPairs stats b).foldl
        (fun (a : ℚ × Nat) cv =>
          if cv.2 > 0 then (a.1 + |cv.1 - cv.2| / cv.2, a.2 + 1) else a)
        (0, 0)
      let avg := acc.1 / ((max acc.2 1 : Nat) : ℚ)
      (avg > 1/2, avg)

/-- Python dict write `d[key] = v`: replace in place if present (keeping
insertion order), else append at the end. -/
def memSet (key : List Char) (v : PatternEntry) :
    List (List Char × PatternEntry) → List (List Char × PatternEntry)
  | [] => [(key, v)]
  | (k, w) :: rest =>
    if k = key then (key, v) :: rest else (k, w) :: memSet key v rest

/-- The key `f"{pattern_type}:{pattern_value}"`. -/
def patternKey (pattern_type pattern_value : List Char) : List Char :=
  pattern_type ++ ':' :: pattern_value

/-- `ContinualLearningEngine.learn_pattern`.  The `defaultdict` default is
`{'count': 0, 'anomaly_rate': 0.0}`; `count` is incremented first, and only an
anomalous observation touches `anomaly_rate`, via
`(old_rate * (count - 1) + 1.0) / count` with the already-incremented
`count`. -/
def learn_pattern (s : LearnerState) (pattern_type pattern_value : List Char)
    (is_anomaly : Bool) : LearnerState :=
  let key := patternKey pattern_type pattern_value
  let e := (s.pattern_memory.lookup key).getD ⟨0, 0⟩
  let count := e.count + 1
  let rate :=
    if is_anomaly then
      (e.anomaly_rate * (((count - 1 : Nat)) : ℚ) + 1) / ((count : Nat) : ℚ)
    else e.anomaly_rate
  { s with pattern_memory := memSet key ⟨count, rate⟩ s.pattern_memory,
           recent_patterns := deqPush 1000 (key, is_anomaly) s.recent_patterns }

/-- `ContinualLearningEngine.get_pattern_confidence`. -/
def get_pattern_confidence (s : LearnerState)
    (pattern_type pattern_value : List Char) : ℚ :=
  let key := patternKey pattern_type pattern_value
  match s.pattern_memory.lookup key with
  | none => 1/2
  | some e => min ((e.count : ℚ) / 100) 1 * (1 - e.anomaly_rate)

/-! ## AdvancedLogAnalyzer -/

/-- `AdvancedLogAnalyzer` instance state. -/
structure AnalyzerState where
  optimizer : OptimizerState
  learner : LearnerState
  analysis_count : Nat
deriving DecidableEq

/-- `AdvancedLogAnalyzer.__init__`. -/
def initAnalyzer : AnalyzerState :=
  { optimizer := initOptimizer, learner := initLearner, analysis_count := 0 }

/-- The `learning_metadata` sub-dict of the result. -/
structure LearningMetadata where
  analysis_count : Nat
  baseline_established : Bool
  pattern_memory_size : Nat
  threshold_adjustments : Nat
deriving DecidableEq

/-- The enriched result dict returned by `analyze`. -/
structure EngineResult where
  stats : LogStats
  corruption_stats : CorruptionStats
  patterns : PatternSet
  severity : Severity
  confidence : ℚ
  optimized_thresholds : Thresholds
  drift : Bool × ℚ
  learning_metadata : LearningMetadata
deriving DecidableEq

/-- `set(pattern_list)` iteration, modelled as first-occurrence
deduplication.  (CPython iterates a `str` set in hash order; no theorem below
depends on the order, only on the underlying set.) -/
def dedupFirst : List (List Char) → List (List Char) :=
  go []
where
  go (seen : List (List Char)) : List (List Char) → List (List Char)
    | [] => []
    | a :: rest => if a ∈ seen then go seen rest else a :: go (a :: seen) rest

/-- Step 8 of `analyze`: for each pattern type (dict insertion order:
timestamps, ip_addresses, error_codes, severity_levels) and each unique
pattern value, `learn_pattern(type, value, type == 'error_codes')`. -/
def learnPatterns (s : LearnerState) (patterns : PatternSet) : LearnerState :=
  let step := fun (ty : String) (anom : Bool) (vals : List (List Char))
                  (st : LearnerState) =>
    (dedupFirst vals).foldl (fun st v => learn_pattern st ty.toList v anom) st
  s |> step "timestamps" false patterns.timestamps
    |> step "ip_addresses" false patterns.ip_addresses
    |> step "error_codes" true patterns.error_codes
    |> step "severity_levels" false patterns.severity_levels

/-- `AdvancedLogAnalyzer.analyze`, steps in source order: bump the call
counter, parse robustly, extract patterns, compute statistics, optimize
thresholds, classify severity with the *updated* thresholds, detect drift
against the *pre-update* baseline, update the baseline, learn the extracted
patterns, and finally apply feedback to the optimizer (`if feedback:`).
`optimized_thresholds` in the result is `self.thresholds` as returned by
`optimize_thresholds`; `update_from_feedback` never writes that dict, so the
snapshot equals the post-call thresholds. -/
def analyze (st : AnalyzerState) (content : RawInput) (feedback : Option Feedback) :
    AnalyzerState × EngineResult :=
  let analysis_count := st.analysis_count + 1
  let parsed := parse_robust content
  let cleaned_content := parsed.1
  let corruption_stats := parsed.2
  let patterns := extract_patterns_robust cleaned_content
  let stats := computeStats cleaned_content
  let opt1 := optimize_thresholds st.optimizer stats
  let sevconf := get_adaptive_severity opt1 stats
  let drift := detect_distribution_drift st.learner stats
  let learner1 := update_baseline st.learner stats
  let learner2 := learnPatterns learner1 patterns
  let opt2 := match feedback with
              | some fb => update_from_feedback opt1 (some fb)
              | none => opt1
  (⟨opt2, learner2, analysis_count⟩,
   { stats := stats,
     corruption_stats := corruption_stats,
     patterns := patterns,
     severity := sevconf.1,
     confidence := sevconf.2,
     optimized_thresholds := opt1.thresholds,
     drift := drift,
     learning_metadata :=
       { analysis_count := analysis_count,
         baseline_established := learner2.baseline_established,
         pattern_memory_size := learner2.pattern_memory.length,
         threshold_adjustments := opt1.threshold_history.length } })

/-! ## Exception-checked variant of the pipeline

Python can only raise inside the engine at a division (`ZeroDivisionError`);
every string/regex/dict operation used is total, and `_decode_robust` catches
decode errors with a Latin-1 fallback that cannot fail.  The definitions below
repeat the pipeline with every division routed through `div?`, which fails on
a zero denominator; `analyze_checked = some (analyze ...)` then states that
`analyze` never raises. -/

/-- Division as Python performs it: raises (here: `none`) on a zero
denominator. -/
def div? (a b : ℚ) : Option ℚ := if b = 0 then none else some (a / b)

/-- `optimize_thresholds` with checked divisions. -/
def optimize_thresholds_checked (s : OptimizerState) (stats : LogStats) :
    Option OptimizerState := do
  let total := totalEvents stats
  let er ← div? (stats.error_count : ℚ) total
  let wr ← div? (stats.warning_count : ℚ) total
  pure (optimizeWithRates s er wr)

/-- `get_adaptive_severity` with checked divisions. -/
def get_adaptive_severity_checked (s : OptimizerState) (stats : LogStats) :
    Option (Severity × ℚ) := do
  let total := totalEvents stats
  let er ← div? (stats.error_count : ℚ) total
  let wr ← div? (stats.warning_count : ℚ) total
  let a ← div? er s.thresholds.error_rate
  let b ← div? wr s.thresholds.warning_rate
  pure (severityFromScore (a * (3/5) + b * (2/5)))

/-- `detect_distribution_drift` with checked divisions. -/
def detect_distribution_drift_checked (s : LearnerState) (stats : LogStats) :
    Option (Bool × ℚ) :=
  if s.baseline_established = false then some (false, 0)
  else
    match s.baseline_stats with
    | none => some (false, 0)
    | some b => do
      let acc ← (driftPairs stats b).foldlM
        (fun (a : ℚ × Nat) cv =>
          if cv.2 > 0 then do
            let d ← div? |cv.1 - cv.2| cv.2
            pure (a.1 + d, a.2 + 1)
          else pure a) ((0 : ℚ), (0 : Nat))
      let avg ← div? acc.1 ((max acc.2 1 : Nat) : ℚ)
      pure (avg > 1/2, avg)

/-- `np.var` with checked divisions (`np.var` of an empty slice yields `nan`
with a warning, not an exception, and is unreachable in the source anyway). -/
def pvar_checked (l : List ℚ) : Option ℚ :=
  if l.length = 0 then some 0
  else do
    let m ← div? l.sum ((l.length : Nat) : ℚ)
    div? ((l.map (fun x => (x - m) ^ 2)).sum) ((l.length : Nat) : ℚ)

/-- `update_from_feedback` with checked divisions. -/
def update_from_feedback_checked (s : OptimizerState) (feedback : Option Feedback) :
    Option OptimizerState :=
  match feedback with
  | none => some s
  | some fb => do
    let p := fb.precision.getD (4/5)
    let r := fb.«recall».getD (4/5)
    let f1 ← if p + r > 0 then div? (2 * (p * r)) (p + r) else pure 0
    let s :=
      { s with precision_metrics := deqPush 50 p s.precision_metrics,
               recall_metrics := deqPush 50 r s.recall_metrics,
               f1_metrics := deqPush 50 f1 s.f1_metrics }
    if 10 < s.f1_metrics.length then do
      let variance ← pvar_checked (s.f1_metrics.take 10)
      pure (if variance < 1/100 then
              { s with learning_rate := max (1/20) (s.learning_rate * (19/20)) }
            else if variance > 1/20 then
              { s with learning_rate := min (1/4) (s.learning_rate * (11/10)) }
            else s)
    else pure s

/-- `learn_pattern` with a checked division. -/
def learn_pattern_checked (s : LearnerState) (pattern_type pattern_value : List Char)
    (is_anomaly : Bool) : Option LearnerState := do
  let key := patternKey pattern_type pattern_value
  let e := (s.pattern_memory.lookup key).getD ⟨0, 0⟩
  let count := e.count + 1
  let rate ←
    if is_anomaly then
      div? (e.anomaly_rate * (((count - 1 : Nat)) : ℚ) + 1) ((count : Nat) : ℚ)
    else pure e.anomaly_rate
  pure { s with pattern_memory := memSet key ⟨count, rate⟩ s.pattern_memory,
                recent_patterns := deqPush 1000 (key, is_anomaly) s.recent_patterns }

/-- Step 8 of `analyze` with checked divisions. -/
def learnPatterns_checked (s : LearnerState) (patterns : PatternSet) :
    Option LearnerState := do
  let step := fun (ty : String) (anom : Bool) (vals : List (List Char))
                  (st : LearnerState) =>
    (dedupFirst vals).foldlM (fun st v => learn_pattern_checked st ty.toList v anom) st
  let s ← step "timestamps" false patterns.timestamps s
  let s ← step "ip_addresses" false patterns.ip_addresses s
  let s ← step "error_codes" true patterns.error_codes s
  step "severity_levels" false patterns.severity_levels s

/-- `analyze` with every division checked. -/
def analyze_checked (st : AnalyzerState) (content : RawInput)
    (feedback : Option Feedback) : Option (AnalyzerState × EngineResult) := do
  let analysis_count := st.analysis_count + 1
  let parsed := parse_robust content
  let cleaned_content := parsed.1
  let corruption_stats := parsed.2
  let patterns := extract_patterns_robust cleaned_content
  let stats := computeStats cleaned_content
  let opt1 ← optimize_thresholds_checked st.optimizer stats
  let sevconf ← get_adaptive_severity_checked opt1 stats
  let drift ← detect_distribution_drift_checked st.learner stats
  let learner1 := update_baseline st.learner stats
  let learner2 ← learnPatterns_checked learner1 patterns
  let opt2 ← match feedback with
             | some fb => update_from_feedback_checked opt1 (some fb)
             | none => pure opt1
  pure (⟨opt2, learner2, analysis_count⟩,
    { stats := stats,
      corruption_stats := corruption_stats,
      patterns := patterns,
      severity := sevconf.1,
      confidence := sevconf.2,
      optimized_thresholds := opt1.thresholds,
      drift := drift,
      learning_metadata :=
        { analysis_count := analysis_count,
          baseline_established := learner2.baseline_established,
          pattern_memory_size := learner2.pattern_memory.length,
          threshold_adjustments := opt1.threshold_history.length } })

/-! ## Reachable states and threshold invariants -/

/-- States of an `AdaptiveHyperparameterOptimizer` produced by any sequence of
`optimize_thresholds` / `update_from_feedback` calls from `__init__`. -/
inductive OptReachable : OptimizerState → Prop where
  | init : OptReachable initOptimizer
  | optimize (s : OptimizerState) (stats : LogStats) :
      OptReachable s → OptReachable (optimize_thresholds s stats)
  | feedback (s : OptimizerState) (fb : Option Feedback) :
      OptReachable s → OptReachable (update_from_feedback s fb)

/-- The numeric optimizer invariant: the error threshold stays in
`[0.01, 0.20]`, the learning rate in `[0.05, 0.25]`, and the warning
threshold is the constant `0.10`. -/
def OptInv (s : OptimizerState) : Prop :=
  1/100 ≤ s.thresholds.error_rate ∧ s.thresholds.error_rate ≤ 1/5 ∧
  1/20 ≤ s.learning_rate ∧ s.learning_rate ≤ 1/4 ∧
  s.thresholds.warning_rate = 1/10

lemma optInv_init : OptInv initOptimizer := by
  refine ⟨?_, ?_, ?_, ?_, ?_⟩ <;> norm_num [OptInv, initOptimizer]

lemma optInv_optimizeWithRates (s : OptimizerState) (er wr : ℚ) (h : OptInv s) :
    OptInv (optimizeWithRates s er wr) := by
  obtain ⟨h1, h2, h3, h4, h5⟩ := h
  simp only [optimizeWithRates, OptInv]
  split_ifs with hA hB
  · refine ⟨le_min (by nlinarith) (by norm_num), min_le_right _ _, h3, h4, h5⟩
  · refine ⟨le_max_right _ _, max_le (by nlinarith) (by norm_num), h3, h4, h5⟩
  · exact ⟨h1, h2, h3, h4, h5⟩

lemma optInv_optimize (s : OptimizerState) (stats : LogStats) (h : OptInv s) :
    OptInv (optimize_thresholds s stats) :=
  optInv_optimizeWithRates s _ _ h

lemma optInv_feedback (s : OptimizerState) (fb : Option Feedback) (h : OptInv s) :
    OptInv (update_from_feedback s fb) := by
  obtain ⟨h1, h2, h3, h4, h5⟩ := h
  cases fb with
  | none => exact ⟨h1, h2, h3, h4, h5⟩
  | some f =>
    simp only [update_from_feedback]
    split_ifs <;>
      refine ⟨h1, h2, ?_, ?_, h5⟩ <;>
      first
        | exact h3
        | exact h4
        | exact le_max_left _ _
        | exact max_le (by norm_num) (by nlinarith)
        | exact le_min (by norm_num) (by nlinarith)
        | exact min_le_left _ _

lemma optInv_of_reachable (s : OptimizerState) (h : OptReachable s) : OptInv s := by
  induction h with
  | init => exact optInv_init
  | optimize s stats _ ih => exact optInv_optimize s stats ih
  | feedback s fb _ ih => exact optInv_feedback s fb ih

/-- Analyzer states produced by any sequence of `analyze` calls from
`__init__`. -/
inductive AnalyzerReachable : AnalyzerState → Prop where
  | init : AnalyzerReachable initAnalyzer
  | step (st : AnalyzerState) (content : RawInput) (feedback : Option Feedback) :
      AnalyzerReachable st → AnalyzerReachable (analyze st content feedback).1

lemma optInv_of_analyzerReachable (st : AnalyzerState)
    (h : AnalyzerReachable st) : OptInv st.optimizer := by
  induction h with
  | init => exact optInv_init
  | step st content feedback _ ih =>
    have h1 := optInv_optimize st.optimizer (computeStats (parse_robust content).1) ih
    simp only [analyze]
    cases feedback with
    | none => exact h1
    | some fb => exact optInv_feedback _ (some fb) h1

lemma div?_eq {a b : ℚ} (h : b ≠ 0) : div? a b = some (a / b) := by
  simp [div?, h]

lemma totalEvents_pos (stats : LogStats) : 0 < totalEvents stats := by
  unfold totalEvents
  exact_mod_cast Nat.lt_of_lt_of_le Nat.zero_lt_one (le_max_right _ _)

lemma optimize_checked_eq (s : OptimizerState) (stats : LogStats) :
    optimize_thresholds_checked s stats = some (optimize_thresholds s stats) := by
  have h := (totalEvents_pos stats).ne'
  simp [optimize_thresholds_checked, optimize_thresholds, div?_eq h]

lemma severity_checked_eq (s : OptimizerState) (stats : LogStats)
    (hE : s.thresholds.error_rate ≠ 0) (hW : s.thresholds.warning_rate ≠ 0) :
    get_adaptive_severity_checked s stats = some (get_adaptive_severity s stats) := by
  have h := (totalEvents_pos stats).ne'
  simp [get_adaptive_severity_checked, get_adaptive_severity, div?_eq h,
        div?_eq hE, div?_eq hW]

/-- A `foldlM` over `Option` whose step never fails is a plain `foldl`. -/
lemma foldlM_option_eq {α β : Type} {f : β → α → Option β} {g : β → α → β}
    (hfg : ∀ b a, f b a = some (g b a)) :
    ∀ (l : List α) (b : β), l.foldlM f b = some (l.foldl g b)
  | [], _ => rfl
  | x :: xs, b => by
    rw [List.foldlM_cons, hfg]
    simpa using foldlM_option_eq hfg xs (g b x)

lemma natMaxOne_cast_ne_zero (n : Nat) : ((max n 1 : Nat) : ℚ) ≠ 0 := by
  have h : 0 < max n 1 := Nat.lt_of_lt_of_le Nat.zero_lt_one (le_max_right _ _)
  exact_mod_cast h.ne'

lemma drift_tail_eq (acc : ℚ × Nat) :
    (do
      let avg ← div? acc.1 ((max acc.2 1 : Nat) : ℚ)
      pure (decide (avg > 1/2), avg) : Option (Bool × ℚ)) =
      some (decide (acc.1 / ((max acc.2 1 : Nat) : ℚ) > 1/2),
            acc.1 / ((max acc.2 1 : Nat) : ℚ)) := by
  rw [div?_eq (natMaxOne_cast_ne_zero _)]
  rfl

lemma drift_checked_eq (s : LearnerState) (stats : LogStats) :
    detect_distribution_drift_checked s stats =
      some (detect_distribution_drift s stats) := by
  unfold detect_distribution_drift_checked detect_distribution_drift
  split_ifs with h
  · rfl
  · cases hb : s.baseline_stats with
    | none => rfl
    | some b =>
      have hstep : ∀ (a : ℚ × Nat) (cv : ℚ × ℚ),
          (if cv.2 > 0 then do
            let d ← div? |cv.1 - cv.2| cv.2
            pure (a.1 + d, a.2 + 1)
          else pure a : Option (ℚ × Nat)) =
            some (if cv.2 > 0 then (a.1 + |cv.1 - cv.2| / cv.2, a.2 + 1) else a) := by
        intro a cv
        by_cases hc : cv.2 > 0
        · simp [hc, div?_eq hc.ne']
        · simp [hc]
      dsimp only
      rw [foldlM_option_eq hstep]
      exact drift_tail_eq _

lemma pvar_checked_eq (l : List ℚ) : pvar_checked l = some (pvar l) := by
  unfold pvar_checked pvar
  split_ifs with h
  · rfl
  · have hn : ((l.length : Nat) : ℚ) ≠ 0 := by exact_mod_cast h
    simp [div?_eq hn]

lemma feedback_tail_eq (s' : OptimizerState) :
    (if 10 < s'.f1_metrics.length then do
        let variance ← pvar_checked (s'.f1_metrics.take 10)
        pure (if variance < 1/100 then
                { s' with learning_rate := max (1/20) (s'.learning_rate * (19/20)) }
              else if variance > 1/20 then
                { s' with learning_rate := min (1/4) (s'.learning_rate * (11/10)) }
              else s')
      else pure s' : Option OptimizerState) =
      some (if 10 < s'.f1_metrics.length then
              (let variance := pvar (s'.f1_metrics.take 10)
               if variance < 1/100 then
                 { s' with learning_rate := max (1/20) (s'.learning_rate * (19/20)) }
               else if variance > 1/20 then
                 { s' with learning_rate := min (1/4) (s'.learning_rate * (11/10)) }
               else s')
            else s') := by
  by_cases hl : 10 < s'.f1_metrics.length
  · rw [if_pos hl, if_pos hl, pvar_checked_eq]
    rfl
  · rw [if_neg hl, if_neg hl]
    rfl

lemma feedback_checked_eq (s : OptimizerState) (fb : Option Feedback) :
    update_from_feedback_checked s fb = some (update_from_feedback s fb) := by
  cases fb with
  | none => rfl
  | some f =>
    unfold update_from_feedback_checked update_from_feedback
    dsimp only
    by_cases hpr : f.precision.getD (4/5) + f.«recall».getD (4/5) > 0
    · simp only [if_pos hpr, div?_eq hpr.ne']
      exact feedback_tail_eq
        { s with
          precision_metrics := deqPush 50 (f.precision.getD (4/5)) s.precision_metrics,
          recall_metrics := deqPush 50 (f.«recall».getD (4/5)) s.recall_metrics,
          f1_metrics := deqPush 50
            (2 * (f.precision.getD (4/5) * f.«recall».getD (4/5)) /
              (f.precision.getD (4/5) + f.«recall».getD (4/5))) s.f1_metrics }
    · simp only [if_neg hpr]
      exact feedback_tail_eq
        { s with
          precision_metrics := deqPush 50 (f.precision.getD (4/5)) s.precision_metrics,
          recall_metrics := deqPush 50 (f.«recall».getD (4/5)) s.recall_metrics,
          f1_metrics := deqPush 50 0 s.f1_metrics }

lemma learn_checked_eq (s : LearnerState) (ty v : List Char) (anom : Bool) :
    learn_pattern_checked s ty v anom = some (learn_pattern s ty v anom) := by
  cases anom with
  | false => rfl
  | true =>
    have hc : ((((s.pattern_memory.lookup (patternKey ty v)).getD ⟨0, 0⟩).count : ℚ) + 1) ≠ 0 := by
      positivity
    simp [learn_pattern_checked, learn_pattern, div?_eq, hc]

lemma learn_fold_eq (ty : List Char) (anom : Bool) (l : List (List Char))
    (s : LearnerState) :
    (l.foldlM (fun st v => learn_pattern_checked st ty v anom) s :
        Option LearnerState) =
      some (l.foldl (fun st v => learn_pattern st ty v anom) s) :=
  foldlM_option_eq (fun st v => learn_checked_eq st ty v anom) l s

lemma learnPatterns_checked_eq (s : LearnerState) (patterns : PatternSet) :
    learnPatterns_checked s patterns = some (learnPatterns s patterns) := by
  unfold learnPatterns_checked learnPatterns
  simp [learn_fold_eq]

lemma analyze_checked_eq (st : AnalyzerState) (content : RawInput)
    (feedback : Option Feedback) (h : OptInv st.optimizer) :
    analyze_checked st content feedback = some (analyze st content feedback) := by
  have hinv := optInv_optimize st.optimizer (computeStats (parse_robust content).1) h
  have hE : (optimize_thresholds st.optimizer
      (computeStats (parse_robust content).1)).thresholds.error_rate ≠ 0 :=
    (lt_of_lt_of_le (by norm_num) hinv.1).ne'
  have hW : (optimize_thresholds st.optimizer
      (computeStats (parse_robust content).1)).thresholds.warning_rate ≠ 0 := by
    rw [hinv.2.2.2.2]; norm_num
  unfold analyze_checked analyze
  cases feedback with
  | none =>
    simp [optimize_checked_eq, severity_checked_eq _ _ hE hW, drift_checked_eq,
          learnPatterns_checked_eq]
  | some fb =>
    simp [optimize_checked_eq, severity_checked_eq _ _ hE hW, drift_checked_eq,
          learnPatterns_checked_eq, feedback_checked_eq]

/-! ## Result well-formedness -/

lemma severityFromScore_bounds (score : ℚ) (h : 0 ≤ score) :
    0 ≤ (severityFromScore score).2 ∧ (severityFromScore score).2 ≤ 1 := by
  unfold severityFromScore
  split_ifs with h3 h2 h1
  · exact ⟨le_min (by positivity) (by norm_num), min_le_right _ _⟩
  · exact ⟨le_min (by positivity) (by norm_num),
      le_trans (min_le_right _ _) (by norm_num)⟩
  · exact ⟨le_min (by positivity) (by norm_num),
      le_trans (min_le_right _ _) (by norm_num)⟩
  · push_neg at h1
    exact ⟨by positivity, by nlinarith⟩

lemma confidence_bounds (s : OptimizerState) (stats : LogStats)
    (hE : 0 < s.thresholds.error_rate) (hW : 0 < s.thresholds.warning_rate) :
    0 ≤ (get_adaptive_severity s stats).2 ∧ (get_adaptive_severity s stats).2 ≤ 1 := by
  unfold get_adaptive_severity
  apply severityFromScore_bounds
  have h1 : (0:ℚ) ≤ (stats.error_count : ℚ) / totalEvents stats :=
    div_nonneg (Nat.cast_nonneg _) (totalEvents_pos stats).le
  have h2 : (0:ℚ) ≤ (stats.warning_count : ℚ) / totalEvents stats :=
    div_nonneg (Nat.cast_nonneg _) (totalEvents_pos stats).le
  have h3 : (0:ℚ) ≤ (stats.error_count : ℚ) / totalEvents stats /
      s.thresholds.error_rate * (3/5) :=
    mul_nonneg (div_nonneg h1 hE.le) (by norm_num)
  have h4 : (0:ℚ) ≤ (stats.warning_count : ℚ) / totalEvents stats /
      s.thresholds.warning_rate * (2/5) :=
    mul_nonneg (div_nonneg h2 hW.le) (by norm_num)
  linarith

lemma drift_fold_nonneg (l : List (ℚ × ℚ)) (acc : ℚ × Nat) (h : 0 ≤ acc.1) :
    0 ≤ (l.foldl
      (fun (a : ℚ × Nat) cv =>
        if cv.2 > 0 then (a.1 + |cv.1 - cv.2| / cv.2, a.2 + 1) else a) acc).1 := by
  induction l generalizing acc with
  | nil => exact h
  | cons cv rest ih =>
    rw [List.foldl_cons]
    apply ih
    by_cases hc : cv.2 > 0
    · rw [if_pos hc]
      have := div_nonneg (abs_nonneg (cv.1 - cv.2)) hc.le
      dsimp only
      linarith
    · rwa [if_neg hc]

lemma drift_score_nonneg (s : LearnerState) (stats : LogStats) :
    0 ≤ (detect_distribution_drift s stats).2 := by
  unfold detect_distribution_drift
  split_ifs with h
  · norm_num
  · cases s.baseline_stats with
    | none => norm_num
    | some b =>
      dsimp only
      apply div_nonneg (drift_fold_nonneg _ _ le_rfl)
      positivity

/-- The well-formedness facts about an `EngineResult` used in C9: confidence
is a probability-like value and the drift score is non-negative. -/
def resultWellFormed (r : EngineResult) : Prop :=
  0 ≤ r.confidence ∧ r.confidence ≤ 1 ∧ 0 ≤ r.drift.2

lemma analyze_wellFormed (st : AnalyzerState) (content : RawInput)
    (feedback : Option Feedback) (h : OptInv st.optimizer) :
    resultWellFormed (analyze st content feedback).2 := by
  have hinv := optInv_optimize st.optimizer
    (computeStats (parse_robust content).1) h
  have hE : 0 < (optimize_thresholds st.optimizer
      (computeStats (parse_robust content).1)).thresholds.error_rate :=
    lt_of_lt_of_le (by norm_num) hinv.1
  have hW : 0 < (optimize_thresholds st.optimizer
      (computeStats (parse_robust content).1)).thresholds.warning_rate := by
    rw [hinv.2.2.2.2]; norm_num
  have hc := confidence_bounds _ (computeStats (parse_robust content).1) hE hW
  have hd := drift_score_nonneg st.learner (computeStats (parse_robust content).1)
  exact ⟨hc.1, hc.2, hd⟩

/-! ## Field-preservation helpers -/

lemma foldLearn_fields (ty : List Char) (anom : Bool) :
    ∀ (l : List (List Char)) (s : LearnerState),
      (l.foldl (fun st v => learn_pattern st ty v anom) s).baseline_stats =
          s.baseline_stats ∧
        (l.foldl (fun st v => learn_pattern st ty v anom) s).baseline_established =
          s.baseline_established
  | [], _ => ⟨rfl, rfl⟩
  | v :: rest, s => by
    rw [List.foldl_cons]
    have h := foldLearn_fields ty anom rest (learn_pattern s ty v anom)
    simpa [learn_pattern] using h

lemma foldLearn_baseline (ty : List Char) (anom : Bool) (l : List (List Char))
    (s : LearnerState) :
    (l.foldl (fun st v => learn_pattern st ty v anom) s).baseline_stats =
      s.baseline_stats :=
  (foldLearn_fields ty anom l s).1

lemma foldLearn_established (ty : List Char) (anom : Bool) (l : List (List Char))
    (s : LearnerState) :
    (l.foldl (fun st v => learn_pattern st ty v anom) s).baseline_established =
      s.baseline_established :=
  (foldLearn_fields ty anom l s).2

lemma learnPatterns_fields (s : LearnerState) (ps : PatternSet) :
    (learnPatterns s ps).baseline_stats = s.baseline_stats ∧
      (learnPatterns s ps).baseline_established = s.baseline_established := by
  unfold learnPatterns
  constructor <;> simp [foldLearn_baseline, foldLearn_established]

/-! ## Pattern-memory lemmas -/

lemma lookup_memSet_self (key : List Char) (v : PatternEntry) :
    ∀ (mem : List (List Char × PatternEntry)),
      (memSet key v mem).lookup key = some v
  | [] => by simp [memSet, List.lookup]
  | (k, w) :: rest => by
    by_cases h : k = key
    · simp [memSet, h, List.lookup]
    · have ih := lookup_memSet_self key v rest
      simp only [memSet, if_neg h, List.lookup]
      have : (key == k) = false := by
        simp [beq_eq_false_iff_ne]
        exact fun hk => h hk.symm
      simp [this, ih]

lemma lookup_memSet_ne (key : List Char) (v : PatternEntry) (k : List Char)
    (hk : k ≠ key) :
    ∀ (mem : List (List Char × PatternEntry)),
      (memSet key v mem).lookup k = mem.lookup k
  | [] => by
    have : (k == key) = false := by simpa [beq_eq_false_iff_ne] using hk
    simp [memSet, List.lookup, this]
  | (k', w) :: rest => by
    by_cases h : k' = key
    · subst h
      have : (k == k') = false := by simpa [beq_eq_false_iff_ne] using hk
      simp [memSet, List.lookup, this]
    · have ih := lookup_memSet_ne key v k hk rest
      by_cases h2 : k = k'
      · subst h2
        simp [memSet, if_neg h, List.lookup]
      · have hb : (k == k') = false := by simpa [beq_eq_false_iff_ne] using h2
        simp [memSet, if_neg h, List.lookup, hb, ih]

/-- Every `anomaly_rate` stored in the pattern memory lies in `[0, 1]`. -/
def MemInv (s : LearnerState) : Prop :=
  ∀ k e, s.pattern_memory.lookup k = some e →
    0 ≤ e.anomaly_rate ∧ e.anomaly_rate ≤ 1

lemma memInv_init : MemInv initLearner := by
  intro k e h
  simp [initLearner, List.lookup] at h

lemma memInv_learn (s : LearnerState) (ty v : List Char) (anom : Bool)
    (h : MemInv s) : MemInv (learn_pattern s ty v anom) := by
  intro k e hk
  simp only [learn_pattern] at hk
  have hold : 0 ≤ ((s.pattern_memory.lookup (patternKey ty v)).getD ⟨0, 0⟩).anomaly_rate ∧
      ((s.pattern_memory.lookup (patternKey ty v)).getD ⟨0, 0⟩).anomaly_rate ≤ 1 := by
    cases hl : s.pattern_memory.lookup (patternKey ty v) with
    | none => simp [hl]
    | some e1 =>
      have := h _ _ hl
      simpa [hl] using this
  by_cases hkey : k = patternKey ty v
  · subst hkey
    rw [lookup_memSet_self] at hk
    obtain rfl : (⟨_, _⟩ : PatternEntry) = e := Option.some.inj hk
    cases anom with
    | false => exact hold
    | true =>
      set e0 := (s.pattern_memory.lookup (patternKey ty v)).getD ⟨0, 0⟩ with he0
      have hcount : (((e0.count + 1 - 1 : Nat)) : ℚ) = (e0.count : ℚ) := by
        norm_num
      have hp : (0:ℚ) < ((e0.count + 1 : Nat) : ℚ) := by
        exact_mod_cast Nat.succ_pos e0.count
      have hnum : (0:ℚ) ≤ e0.anomaly_rate * (e0.count : ℚ) := by
        exact mul_nonneg hold.1 (Nat.cast_nonneg _)
      constructor
      · simp only [if_true, hcount]
        apply div_nonneg _ hp.le
        linarith
      · simp only [if_true, hcount]
        rw [div_le_one hp]
        push_cast
        nlinarith [hold.2, Nat.cast_nonneg (α := ℚ) e0.count]
  · rw [lookup_memSet_ne _ _ _ hkey] at hk
    exact h _ _ hk

/-- Learner states produced by any sequence of `learn_pattern` calls from
`__init__`. -/
inductive LearnerReachable : LearnerState → Prop where
  | init : LearnerReachable initLearner
  | learn (s : LearnerState) (ty v : List Char) (anom : Bool) :
      LearnerReachable s → LearnerReachable (learn_pattern s ty v anom)

lemma memInv_of_learnerReachable (s : LearnerState) (h : LearnerReachable s) :
    MemInv s := by
  induction h with
  | init => exact memInv_init
  | learn s ty v anom _ ih => exact memInv_learn s ty v anom ih

lemma confidence_in_unit (s : LearnerState) (hm : MemInv s) (ty v : List Char) :
    0 ≤ get_pattern_confidence s ty v ∧ get_pattern_confidence s ty v ≤ 1 := by
  unfold get_pattern_confidence
  dsimp only
  cases hl : s.pattern_memory.lookup (patternKey ty v) with
  | none => dsimp only; norm_num
  | some e =>
    dsimp only
    obtain ⟨h0, h1⟩ := hm _ _ hl
    have hm0 : (0:ℚ) ≤ min ((e.count : ℚ) / 100) 1 :=
      le_min (by positivity) (by norm_num)
    have hm1 : min ((e.count : ℚ) / 100) 1 ≤ 1 := min_le_right _ _
    constructor
    · exact mul_nonneg hm0 (by linarith)
    · calc min ((e.count : ℚ) / 100) 1 * (1 - e.anomaly_rate)
          ≤ 1 * (1 - e.anomaly_rate) := by
            apply mul_le_mul_of_nonneg_right hm1
            linarith
        _ ≤ 1 := by linarith

/-! ## Parser round-trip lemmas -/

lemma pySplit_ne_nil (sep : Char) : ∀ (l : List Char), pySplit sep l ≠ []
  | [] => by simp [pySplit]
  | c :: rest => by
    have ih := pySplit_ne_nil sep rest
    unfold pySplit
    cases h : pySplit sep rest with
    | nil => exact absurd h ih
    | cons cur parts => split_ifs <;> simp

lemma pySplit_cons (sep c : Char) (rest : List Char) (cur : List Char)
    (parts : List (List Char)) (h : pySplit sep rest = cur :: parts) :
    pySplit sep (c :: rest) =
      if c = sep then [] :: cur :: parts else (c :: cur) :: parts := by
  unfold pySplit
  rw [h]

lemma pySplit_no_sep (sep : Char) :
    ∀ (l : List Char), ∀ x ∈ pySplit sep l, sep ∉ x
  | [] => by
    intro x hx
    simp [pySplit] at hx
    simp [hx]
  | c :: rest => by
    intro x hx
    have ih := pySplit_no_sep sep rest
    cases h : pySplit sep rest with
    | nil => exact absurd h (pySplit_ne_nil sep rest)
    | cons cur parts =>
      rw [pySplit_cons sep c rest cur parts h] at hx
      by_cases hc : c = sep
      · rw [if_pos hc] at hx
        rcases List.mem_cons.mp hx with hx | hx
        · subst hx; simp
        · exact ih x (by rw [h]; exact hx)
      · rw [if_neg hc] at hx
        rcases List.mem_cons.mp hx with hx | hx
        · subst hx
          intro hmem
          rcases List.mem_cons.mp hmem with hm | hm
          · exact hc hm.symm
          · exact ih cur (by rw [h]; exact List.mem_cons_self _ _) hm
        · exact ih x (by rw [h]; exact List.mem_cons_of_mem _ hx)

lemma pySplit_single (sep : Char) :
    ∀ (l : List Char), sep ∉ l → pySplit sep l = [l]
  | [], _ => rfl
  | c :: rest, h => by
    have hc : c ≠ sep := fun hc => h (by simp [hc])
    have ih := pySplit_single sep rest (fun hm => h (by simp [hm]))
    rw [pySplit_cons sep c rest rest [] ih, if_neg hc]

lemma pySplit_append_sep (sep : Char) :
    ∀ (l : List Char) (rest : List Char), sep ∉ l →
      pySplit sep (l ++ sep :: rest) = l :: pySplit sep rest
  | [], rest, _ => by
    simp only [List.nil_append]
    cases h : pySplit sep rest with
    | nil => exact absurd h (pySplit_ne_nil sep rest)
    | cons cur parts =>
      rw [pySplit_cons sep sep rest cur parts h, if_pos rfl]
  | c :: l, rest, h => by
    have hc : c ≠ sep := fun hcc => h (by simp [hcc])
    have ih := pySplit_append_sep sep l rest (fun hm => h (by simp [hm]))
    show pySplit sep (c :: (l ++ sep :: rest)) = (c :: l) :: pySplit sep rest
    cases h2 : pySplit sep rest with
    | nil => exact absurd h2 (pySplit_ne_nil sep rest)
    | cons cur parts =>
      have hmid : pySplit sep (l ++ sep :: rest) = l :: cur :: parts := by
        rw [ih, h2]
      rw [pySplit_cons sep c _ l (cur :: parts) hmid, if_neg hc]

lemma pySplit_pyJoin (sep : Char) :
    ∀ (ls : List (List Char)), ls ≠ [] → (∀ x ∈ ls, sep ∉ x) →
      pySplit sep (pyJoin sep ls) = ls
  | [], h, _ => absurd rfl h
  | [l], _, hx => by
    rw [pyJoin, pySplit_single sep l (hx l (by simp))]
  | l :: l2 :: rest, _, hx => by
    have ih := pySplit_pyJoin sep (l2 :: rest) (by simp)
      (fun x hm => hx x (by simp [hm]))
    rw [pyJoin, pySplit_append_sep sep l _ (hx l (by simp)), ih]

/-- C2 support: `empty_lines` counts exactly the lines blank *before* repair,
and every kept line is non-blank. -/
lemma parseLines_props : ∀ (lines : List (List Char)),
    (parseLines lines).2.empty_lines =
        (lines.filter (fun l => (pyStrip l).isEmpty)).length ∧
      ∀ x ∈ (parseLines lines).1, pyStrip x ≠ []
  | [] => ⟨rfl, by intro x hx; simp [parseLines] at hx⟩
  | line :: rest => by
    obtain ⟨ih1, ih2⟩ := parseLines_props rest
    rcases hrec : parseLines rest with ⟨cls, s⟩
    rw [hrec] at ih1 ih2
    by_cases hb : pyStrip line = []
    · have hfil : (pyStrip line).isEmpty = true := by simp [hb]
      unfold parseLines
      rw [hrec]
      dsimp only
      rw [if_pos hb]
      dsimp only at ih1 ih2
      refine ⟨?_, ih2⟩
      simp [List.filter_cons, hfil, ih1]
    · have hfil : (pyStrip line).isEmpty = false := by simpa using hb
      unfold parseLines
      rw [hrec]
      dsimp only
      rw [if_neg hb]
      dsimp only at ih1 ih2
      constructor
      · simp [List.filter_cons, hfil, ih1]
      · intro x hx
        dsimp only at hx
        by_cases hk : lineKept line
        · rw [if_pos hk] at hx
          rcases List.mem_cons.mp hx with hx | hx
          · subst hx
            simpa [lineKept] using hk
          · exact ih2 x hx
        · rw [if_neg hk] at hx
          exact ih2 x hx

lemma lineNull_mem {c : Char} {line : List Char} (h : c ∈ lineNull line) :
    c ∈ line := by
  unfold lineNull at h
  split at h
  · exact (List.mem_filter.mp h).1
  · exact h

lemma repairLine_mem {c : Char} {line : List Char} (h : c ∈ repairLine line) :
    c ∈ line := by
  unfold repairLine at h
  split at h
  · exact lineNull_mem (List.mem_filter.mp h).1
  · exact lineNull_mem h

lemma repairLine_no_ctrl (line : List Char) :
    ∀ c ∈ repairLine line, isBinaryCtrl c = false := by
  intro c hc
  by_cases hb : lineBin line
  · rw [repairLine, if_pos hb] at hc
    simpa using (List.mem_filter.mp hc).2
  · rw [repairLine, if_neg hb] at hc
    have hany : (lineNull line).any isBinaryCtrl = false := by
      simpa [lineBin] using hb
    by_contra hcc
    have hct : isBinaryCtrl c = true := by simpa using hcc
    have : (lineNull line).any isBinaryCtrl = true :=
      List.any_eq_true.mpr ⟨c, hc, hct⟩
    rw [hany] at this
    exact Bool.false_ne_true this

lemma repairLine_eq_self {line : List Char}
    (h : ∀ c ∈ line, isBinaryCtrl c = false) : repairLine line = line := by
  have ht : lineTrunc line = false := by
    by_contra hne
    have htr : lineTrunc line = true := by simpa using hne
    have hm : '\x00' ∈ line := by simpa [lineTrunc] using htr
    have := h _ hm
    simp [isBinaryCtrl] at this
  have hn : lineNull line = line := by
    rw [lineNull, ht]
    simp
  have hb : lineBin line = false := by
    rw [lineBin, hn]
    by_contra hne
    have hbt : line.any isBinaryCtrl = true := by simpa using hne
    obtain ⟨c, hc, hct⟩ := List.any_eq_true.mp hbt
    rw [h c hc] at hct
    exact Bool.false_ne_true hct
  rw [repairLine, hb, hn]
  simp

lemma parseLines_clean : ∀ (lines : List (List Char)),
    (∀ l ∈ lines, '\n' ∉ l) →
    ∀ x ∈ (parseLines lines).1,
      (∀ c ∈ x, isBinaryCtrl c = false) ∧ pyStrip x ≠ [] ∧ '\n' ∉ x
  | [] => by intro _ x hx; simp [parseLines] at hx
  | line :: rest => by
    intro hnl x hx
    have ih := parseLines_clean rest (fun l hl => hnl l (List.mem_cons_of_mem _ hl))
    rcases hrec : parseLines rest with ⟨cls, s⟩
    rw [hrec] at ih
    unfold parseLines at hx
    rw [hrec] at hx
    dsimp only at hx ih
    by_cases hb : pyStrip line = []
    · rw [if_pos hb] at hx
      exact ih x hx
    · rw [if_neg hb] at hx
      by_cases hk : lineKept line
      · rw [if_pos hk] at hx
        rcases List.mem_cons.mp hx with hx | hx
        · subst hx
          refine ⟨repairLine_no_ctrl line, ?_, ?_⟩
          · simpa [lineKept] using hk
          · intro hm
            exact hnl line (List.mem_cons_self _ _) (repairLine_mem hm)
        · exact ih x hx
      · rw [if_neg hk] at hx
        exact ih x hx

lemma parseLines_id : ∀ (lines : List (List Char)),
    (∀ l ∈ lines, (∀ c ∈ l, isBinaryCtrl c = false) ∧ pyStrip l ≠ []) →
    (parseLines lines).1 = lines
  | [] => fun _ => rfl
  | line :: rest => by
    intro h
    obtain ⟨hctrl, hnb⟩ := h line (List.mem_cons_self _ _)
    have ih := parseLines_id rest (fun l hl => h l (List.mem_cons_of_mem _ hl))
    have hrep := repairLine_eq_self hctrl
    have hk : lineKept line = true := by
      rw [lineKept, hrep]
      simpa using hnb
    rcases hrec : parseLines rest with ⟨cls, s⟩
    rw [hrec] at ih
    dsimp only at ih
    unfold parseLines
    rw [hrec]
    dsimp only
    rw [if_neg hnb, if_pos hk, hrep, ih]

lemma parse_robust_fst (input : RawInput) :
    (parse_robust input).1 =
      pyJoin '\n' (parseLines (pySplit '\n' (rawToText input))).1 := rfl

/-! ## Claims -/

/-- C1: for every sequence of `optimize_thresholds` and `update_from_feedback`
calls starting from the initial optimizer state, the `error_rate` threshold
stays within `[0.01, 0.20]` and the learning rate within `[0.05, 0.25]`. -/
theorem c1_threshold_bounds (s : OptimizerState) (h : OptReachable s) :
    1/100 ≤ s.thresholds.error_rate ∧ s.thresholds.error_rate ≤ 1/5 ∧
      1/20 ≤ s.learning_rate ∧ s.learning_rate ≤ 1/4 := by
  obtain ⟨h1, h2, h3, h4, _⟩ := optInv_of_reachable s h
  exact ⟨h1, h2, h3, h4⟩

/-- Witness for C1 at the initial state. -/
theorem c1_threshold_bounds_witness :
    1/100 ≤ initOptimizer.thresholds.error_rate ∧
      initOptimizer.thresholds.error_rate ≤ 1/5 ∧
      1/20 ≤ initOptimizer.learning_rate ∧ initOptimizer.learning_rate ≤ 1/4 :=
  c1_threshold_bounds initOptimizer OptReachable.init

/-- C2 counterexample: the single line consisting of one null byte is blank
*after* repair; it is dropped from the cleaned text, but it is counted as a
truncated line, not in `empty_lines` (which stays `0`), contradicting the
claim that such lines are counted in the `empty_lines` counter. -/
theorem c2_counterexample :
    (parse_robust (.text ['\x00'])).1 = [] ∧
      (parse_robust (.text ['\x00'])).2 =
        { total_lines := 1, corrupted_lines := 0, truncated_lines := 1,
          recovered_lines := 0, empty_lines := 0 } := by decide

/-- C2 amended: every line that is blank (whitespace-only) *before* repair is
dropped and counted in `empty_lines`; `empty_lines` counts exactly those
lines.  Lines that become blank only after repair are also dropped from the
cleaned text (every kept line is non-blank), but they are not counted in
`empty_lines`. -/
theorem c2_empty_lines_amended (content : List Char) :
    (parse_robust (.text content)).2.empty_lines =
        ((pySplit '\n' content).filter (fun l => (pyStrip l).isEmpty)).length ∧
      (parseLines (pySplit '\n' content)).1.all
        (fun l => !(pyStrip l).isEmpty) = true := by
  obtain ⟨h1, h2⟩ := parseLines_props (pySplit '\n' content)
  refine ⟨h1, ?_⟩
  rw [List.all_eq_true]
  intro x hx
  simpa using h2 x hx

/-- C3 counterexample: after one anomalous observation of a pattern its
`anomaly_rate` is `1` (positive); a subsequent `learn_pattern` call with
`is_anomaly = false` leaves the rate at `1` instead of strictly decreasing it
(the code updates `anomaly_rate` only inside `if is_anomaly:`). -/
theorem c3_counterexample :
    (((learn_pattern (learn_pattern initLearner ['t'] ['v'] true)
          ['t'] ['v'] false).pattern_memory.lookup
        (patternKey ['t'] ['v'])).getD ⟨0, 0⟩).anomaly_rate = 1 ∧
      (((learn_pattern initLearner ['t'] ['v'] true).pattern_memory.lookup
          (patternKey ['t'] ['v'])).getD ⟨0, 0⟩).anomaly_rate = 1 := by
  constructor <;>
    simp [learn_pattern, memSet, patternKey, initLearner, List.lookup]

/-- C3 amended: `learn_pattern` always increments the entry's count; with
`is_anomaly = true` it updates the rate to
`(old_rate * (count - 1) + 1) / count` (with the incremented count), and with
`is_anomaly = false` it leaves the stored `anomaly_rate` unchanged (the
running-average numerator is *not* re-divided by the new count). -/
theorem c3_learn_pattern_amended (s : LearnerState) (ty v : List Char)
    (anom : Bool) :
    (((learn_pattern s ty v anom).pattern_memory.lookup
        (patternKey ty v)).getD ⟨0, 0⟩).count =
        ((s.pattern_memory.lookup (patternKey ty v)).getD ⟨0, 0⟩).count + 1 ∧
      (((learn_pattern s ty v anom).pattern_memory.lookup
          (patternKey ty v)).getD ⟨0, 0⟩).anomaly_rate =
        (if anom then
          (((s.pattern_memory.lookup (patternKey ty v)).getD ⟨0, 0⟩).anomaly_rate *
              ((((s.pattern_memory.lookup (patternKey ty v)).getD ⟨0, 0⟩).count : ℚ)) + 1) /
            ((((s.pattern_memory.lookup (patternKey ty v)).getD ⟨0, 0⟩).count : ℚ) + 1)
        else ((s.pattern_memory.lookup (patternKey ty v)).getD ⟨0, 0⟩).anomaly_rate) := by
  cases anom with
  | false => simp [learn_pattern, lookup_memSet_self]
  | true =>
    simp [learn_pattern, lookup_memSet_self]

/-- C4: on the very first `analyze` call of a fresh engine the drift result is
`(False, 0.0)`, and on every call the drift result is computed from the
learner state *before* that call's `update_baseline` mutation (it equals
`detect_distribution_drift` of the pre-call learner on the call's own
statistics). -/
theorem c4_first_call_drift :
    (∀ (content : RawInput) (feedback : Option Feedback),
        (analyze initAnalyzer content feedback).2.drift = (false, 0)) ∧
      (∀ (st : AnalyzerState) (content : RawInput) (feedback : Option Feedback),
        (analyze st content feedback).2.drift =
          detect_distribution_drift st.learner
            (computeStats (parse_robust content).1)) := by
  constructor
  · intro content feedback
    rfl
  · intro st content feedback
    rfl

/-- C8: parsing is idempotent on its own output — re-parsing the cleaned text
returns the same cleaned text. -/
theorem c8_parse_idempotent (content : List Char) :
    (parse_robust (.text (parse_robust (.text content)).1)).1 =
      (parse_robust (.text content)).1 := by
  have hns := pySplit_no_sep '\n' content
  cases hout : (parseLines (pySplit '\n' content)).1 with
  | nil =>
    have h1 : (parse_robust (.text content)).1 = [] := by
      rw [parse_robust_fst]
      show pyJoin '\n' (parseLines (pySplit '\n' content)).1 = []
      rw [hout]
      rfl
    rw [h1]
    decide
  | cons l ls =>
    have hne : (parseLines (pySplit '\n' content)).1 ≠ [] := by
      rw [hout]; simp
    have hclean := parseLines_clean (pySplit '\n' content) hns
    have hfst : (parse_robust (.text content)).1 =
        pyJoin '\n' (parseLines (pySplit '\n' content)).1 := rfl
    rw [hfst]
    have hsplit : pySplit '\n' (pyJoin '\n' (parseLines (pySplit '\n' content)).1) =
        (parseLines (pySplit '\n' content)).1 :=
      pySplit_pyJoin '\n' _ hne (fun x hx => (hclean x hx).2.2)
    have hid : (parseLines (parseLines (pySplit '\n' content)).1).1 =
        (parseLines (pySplit '\n' content)).1 :=
      parseLines_id _ (fun l hl => ⟨(hclean l hl).1, (hclean l hl).2.1⟩)
    show pyJoin '\n'
        (parseLines (pySplit '\n'
          (pyJoin '\n' (parseLines (pySplit '\n' content)).1))).1 =
      pyJoin '\n' (parseLines (pySplit '\n' content)).1
    rw [hsplit, hid]

/-- C9: from any reachable engine state, `analyze` on any raw input (text or
bytes) and any optional feedback never hits a raising operation (the
division-checked clone returns `some` of the same result) and the result is
well-formed; and on the degenerate empty input `parse_robust` returns empty
cleaned text with zero corruption-repair counts. -/
theorem c9_analyze_total :
    (∀ (st : AnalyzerState), AnalyzerReachable st →
      ∀ (content : RawInput) (feedback : Option Feedback),
        analyze_checked st content feedback = some (analyze st content feedback) ∧
          resultWellFormed (analyze st content feedback).2) ∧
      parse_robust (.text []) =
        ([], { total_lines := 1, corrupted_lines := 0, truncated_lines := 0,
               recovered_lines := 0, empty_lines := 1 }) := by
  constructor
  · intro st h content feedback
    exact ⟨analyze_checked_eq st content feedback (optInv_of_analyzerReachable st h),
           analyze_wellFormed st content feedback (optInv_of_analyzerReachable st h)⟩
  · decide

/-- Witness for C9 at the initial state on the empty text input. -/
theorem c9_analyze_total_witness :
    analyze_checked initAnalyzer (.text []) none =
        some (analyze initAnalyzer (.text []) none) ∧
      resultWellFormed (analyze initAnalyzer (.text []) none).2 :=
  c9_analyze_total.1 initAnalyzer AnalyzerReachable.init (.text []) none

/-- C10: after every sequence of `learn_pattern` calls, every stored
`anomaly_rate` lies in `[0, 1]`, and `get_pattern_confidence` returns a value
in `[0, 1]` for every pattern, seen or unseen. -/
theorem c10_rate_confidence_bounds (s : LearnerState) (h : LearnerReachable s) :
    (∀ k e, s.pattern_memory.lookup k = some e →
        0 ≤ e.anomaly_rate ∧ e.anomaly_rate ≤ 1) ∧
      ∀ ty v, 0 ≤ get_pattern_confidence s ty v ∧
        get_pattern_confidence s ty v ≤ 1 := by
  have hm := memInv_of_learnerReachable s h
  exact ⟨hm, fun ty v => confidence_in_unit s hm ty v⟩

/-- Witness for C10 at the initial learner on a concrete unseen pattern. -/
theorem c10_rate_confidence_bounds_witness :
    0 ≤ get_pattern_confidence initLearner ['i', 'p'] ['x'] ∧
      get_pattern_confidence initLearner ['i', 'p'] ['x'] ≤ 1 :=
  (c10_rate_confidence_bounds initLearner LearnerReachable.init).2 ['i', 'p'] ['x']

/-! ## C7: learning-rate adaptation threshold -/

/-- One `update_from_feedback` call with the constant feedback record
`{'precision': 0.8, 'recall': 0.8}` (F1 = 0.8, variance 0). -/
def c7Step (s : OptimizerState) : OptimizerState :=
  update_from_feedback s (some ⟨some (4/5), some (4/5)⟩)

/-- `n` such feedback calls from the initial optimizer. -/
def c7Iter (n : Nat) : OptimizerState := c7Step^[n] initOptimizer

lemma c7_iter_eq : ∀ n, n ≤ 10 →
    c7Iter n = { initOptimizer with
      precision_metrics := List.replicate n (4/5),
      recall_metrics := List.replicate n (4/5),
      f1_metrics := List.replicate n (4/5) } := by
  intro n
  induction n with
  | zero => intro _; rfl
  | succ k ih =>
    intro hn
    have hk := ih (le_trans (Nat.le_succ k) hn)
    have hiter : c7Iter (k + 1) = c7Step (c7Iter k) :=
      Function.iterate_succ_apply' c7Step k initOptimizer
    rw [hiter, hk]
    have hf1 : (2 * ((4:ℚ)/5 * (4/5)) / (4/5 + 4/5)) = 4/5 := by norm_num
    have hlen : ¬ 10 < (List.replicate (k + 1) ((4:ℚ)/5)).length := by
      simp only [List.length_replicate]
      omega
    have htake : ∀ (m : Nat), m ≤ 10 →
        List.take 50 ((4:ℚ)/5 :: List.replicate m (4/5)) =
          List.replicate (m + 1) (4/5) := by
      intro m hm
      rw [← List.replicate_succ]
      exact List.take_of_length_le (by simp; omega)
    simp only [c7Step, update_from_feedback, deqPush, Option.getD_some]
    rw [if_pos (by norm_num : ((4:ℚ)/5) + 4/5 > 0), hf1,
        htake k (by omega), if_neg hlen]

lemma pvar_replicate_ff : ∀ (n : Nat), 0 < n → pvar (List.replicate n ((4:ℚ)/5)) = 0 := by
  intro n hn
  unfold pvar
  rw [if_neg (by simp; omega)]
  have hsum : (List.replicate n ((4:ℚ)/5)).sum = (n : ℚ) * (4/5) := by
    simp [List.sum_replicate, nsmul_eq_mul]
  have hlen : ((List.replicate n ((4:ℚ)/5)).length : ℚ) = (n : ℚ) := by simp
  have hnq : (n : ℚ) ≠ 0 := by exact_mod_cast hn.ne'
  have hmean : (List.replicate n ((4:ℚ)/5)).sum /
      ((List.replicate n ((4:ℚ)/5)).length : ℚ) = 4/5 := by
    rw [hsum, hlen, mul_div_assoc]
    field_simp
    ring
  rw [hmean]
  simp [List.map_replicate]

lemma c7_iter10 : c7Iter 10 = { initOptimizer with
    precision_metrics := List.replicate 10 (4/5),
    recall_metrics := List.replicate 10 (4/5),
    f1_metrics := List.replicate 10 (4/5) } := c7_iter_eq 10 le_rfl

lemma c7_iter11_lr : (c7Iter 11).learning_rate = 19/200 := by
  have hiter : c7Iter 11 = c7Step (c7Iter 10) :=
    Function.iterate_succ_apply' c7Step 10 initOptimizer
  rw [hiter, c7_iter10]
  have hf1 : (2 * ((4:ℚ)/5 * (4/5)) / (4/5 + 4/5)) = 4/5 := by norm_num
  have htake : List.take 50 ((4:ℚ)/5 :: List.replicate 10 (4/5)) =
      List.replicate 11 (4/5) := by
    rw [← List.replicate_succ]
    exact List.take_of_length_le (by simp)
  have hlen : 10 < (List.replicate 11 ((4:ℚ)/5)).length := by simp
  have htk10 : List.take 10 (List.replicate 11 ((4:ℚ)/5)) =
      List.replicate 10 (4/5) := by
    rw [List.take_replicate]
    norm_num
  simp only [c7Step, update_from_feedback, deqPush, Option.getD_some]
  rw [if_pos (by norm_num : ((4:ℚ)/5) + 4/5 > 0), hf1, htake, if_pos hlen, htk10,
      if_pos (by rw [pvar_replicate_ff 10 (by norm_num)]; norm_num)]
  show (1:ℚ)/20 ⊔ initOptimizer.learning_rate * (19/20) = 19/200
  rw [show initOptimizer.learning_rate = 1/10 from rfl]
  rw [max_eq_right (by norm_num)]
  norm_num

/-- C7 counterexample: after exactly ten feedback records with constant
precision = recall = 0.8 (so ten F1 samples exist and their variance is
`0 < 0.01`), `learning_rate` is still `0.1`: the adaptation did *not* fire,
because the code requires *more than* ten samples (`len(...) > 10`).  The
claim's `learning_rate * 0.95` value (`0.095 = 19/200`) is only reached on
the eleventh call. -/
theorem c7_counterexample :
    (c7Iter 10).f1_metrics.length = 10 ∧
      pvar ((c7Iter 10).f1_metrics.take 10) < 1/100 ∧
      (c7Iter 10).learning_rate = 1/10 ∧
      (c7Iter 10).learning_rate ≠ max (1/20) ((1/10) * (19/20)) ∧
      (c7Iter 11).learning_rate = 19/200 := by
  rw [c7_iter10]
  have htk : List.take 10 (List.replicate 10 ((4:ℚ)/5)) =
      List.replicate 10 (4/5) := by
    rw [List.take_replicate]; norm_num
  refine ⟨by simp, ?_, rfl, ?_, c7_iter11_lr⟩
  · show pvar (List.take 10 (List.replicate 10 ((4:ℚ)/5))) < 1/100
    rw [htk, pvar_replicate_ff 10 (by norm_num)]
    norm_num
  · show initOptimizer.learning_rate ≠ max (1/20) ((1/10) * (19/20))
    rw [show initOptimizer.learning_rate = 1/10 from rfl,
        max_eq_right (by norm_num : (1:ℚ)/20 ≤ 1/10 * (19/20))]
    norm_num

/-- C7 amended: `update_from_feedback` with a feedback record always appends
one F1 sample (capped at 50); the learning-rate adaptation fires only when
*more than ten* F1 samples exist after the append — equivalently from the
eleventh sample onward (the pre-call history already holds at least ten) —
and then multiplies `learning_rate` by `0.95` (floored at `0.05`) when the
variance of the newest ten is below `0.01`, by `1.1` (capped at `0.25`) when
it exceeds `0.05`, and leaves it unchanged in between or with at most ten
samples. -/
theorem c7_adaptation_amended (s : OptimizerState) (fb : Feedback) :
    (update_from_feedback s (some fb)).learning_rate =
        (if 10 < (deqPush 50
              (if fb.precision.getD (4/5) + fb.«recall».getD (4/5) > 0 then
                2 * (fb.precision.getD (4/5) * fb.«recall».getD (4/5)) /
                  (fb.precision.getD (4/5) + fb.«recall».getD (4/5))
              else 0) s.f1_metrics).length then
          (if pvar ((deqPush 50
                (if fb.precision.getD (4/5) + fb.«recall».getD (4/5) > 0 then
                  2 * (fb.precision.getD (4/5) * fb.«recall».getD (4/5)) /
                    (fb.precision.getD (4/5) + fb.«recall».getD (4/5))
                else 0) s.f1_metrics).take 10) < 1/100 then
            max (1/20) (s.learning_rate * (19/20))
          else if pvar ((deqPush 50
                (if fb.precision.getD (4/5) + fb.«recall».getD (4/5) > 0 then
                  2 * (fb.precision.getD (4/5) * fb.«recall».getD (4/5)) /
                    (fb.precision.getD (4/5) + fb.«recall».getD (4/5))
                else 0) s.f1_metrics).take 10) > 1/20 then
            min (1/4) (s.learning_rate * (11/10))
          else s.learning_rate)
        else s.learning_rate) ∧
      (10 < (deqPush 50 (0:ℚ) s.f1_metrics).length ↔ 10 ≤ s.f1_metrics.length) := by
  constructor
  · unfold update_from_feedback
    dsimp only
    split_ifs <;> rfl
  · simp only [deqPush, List.length_take, List.length_cons]
    omega

/-! ## C6: second identical call -/

lemma drift_fold_zero : ∀ (l : List (ℚ × ℚ)), (∀ cv ∈ l, cv.1 = cv.2) →
    ∀ (acc : ℚ × Nat),
      (l.foldl (fun (a : ℚ × Nat) cv =>
        if cv.2 > 0 then (a.1 + |cv.1 - cv.2| / cv.2, a.2 + 1) else a) acc).1 =
        acc.1
  | [], _, _ => rfl
  | cv :: rest, h, acc => by
    rw [List.foldl_cons]
    have hcv := h cv (List.mem_cons_self _ _)
    have ih := drift_fold_zero rest (fun x hx => h x (List.mem_cons_of_mem _ hx))
    by_cases hc : cv.2 > 0
    · rw [if_pos hc]
      rw [ih]
      dsimp only
      rw [hcv, sub_self, abs_zero, zero_div, add_zero]
    · rw [if_neg hc, ih]

lemma detect_seed_self (stats : LogStats) (s : LearnerState)
    (hb : s.baseline_stats = some (seedBaseline stats))
    (he : s.baseline_established = true) :
    detect_distribution_drift s stats = (false, 0) := by
  unfold detect_distribution_drift
  rw [he, hb]
  dsimp only
  have hpairs : ∀ cv ∈ driftPairs stats (seedBaseline stats), cv.1 = cv.2 := by
    intro cv hcv
    simp only [driftPairs, seedBaseline] at hcv
    fin_cases hcv <;> rfl
  rw [drift_fold_zero (driftPairs stats (seedBaseline stats)) hpairs (0, 0)]
  norm_num

lemma optimize_in_band (s : OptimizerState) (stats : LogStats)
    (h1 : s.thresholds.error_rate * (1/2) ≤
      (stats.error_count : ℚ) / totalEvents stats)
    (h2 : (stats.error_count : ℚ) / totalEvents stats ≤
      s.thresholds.error_rate * 2) :
    (optimize_thresholds s stats).thresholds.error_rate =
      s.thresholds.error_rate := by
  unfold optimize_thresholds optimizeWithRates
  dsimp only
  rw [if_neg (not_lt.mpr h2), if_neg (not_lt.mpr h1)]

lemma analyze_learner_baseline (st : AnalyzerState) (content : RawInput)
    (feedback : Option Feedback) :
    (analyze st content feedback).1.learner.baseline_stats =
        (update_baseline st.learner
          (computeStats (parse_robust content).1)).baseline_stats ∧
      (analyze st content feedback).1.learner.baseline_established = true := by
  have h := learnPatterns_fields
    (update_baseline st.learner (computeStats (parse_robust content).1))
    (extract_patterns_robust (parse_robust content).1)
  constructor
  · exact h.1
  · rw [show (analyze st content feedback).1.learner.baseline_established =
        (learnPatterns (update_baseline st.learner
            (computeStats (parse_robust content).1))
          (extract_patterns_robust (parse_robust content).1)).baseline_established
        from rfl, h.2]
    rfl

/-- C6 counterexample: two consecutive `analyze` calls on the identical input
`"hello"` (identical extracted statistics, zero error rate).  The second call
is not drifting, but the error threshold keeps ratcheting down: `0.045` after
the first call, `0.0405` after the second — the claim's "unchanged threshold"
is false. -/
theorem c6_counterexample :
    ((analyze (analyze initAnalyzer (.text "hello".toList) none).1
        (.text "hello".toList) none).2.stats =
      (analyze initAnalyzer (.text "hello".toList) none).2.stats) ∧
    ((analyze (analyze initAnalyzer (.text "hello".toList) none).1
        (.text "hello".toList) none).2.drift.1 = false) ∧
    ((analyze initAnalyzer (.text "hello".toList) none).1.optimizer.thresholds.error_rate
      = 9/200) ∧
    ((analyze (analyze initAnalyzer (.text "hello".toList) none).1
        (.text "hello".toList) none).1.optimizer.thresholds.error_rate = 81/2000) ∧
    ((81:ℚ)/2000) ≠ 9/200 := by
  have hstats : computeStats (parse_robust (.text "hello".toList)).1 =
      ⟨1, 0, 0, 0, 0, 0, 0, 0, 0, 0⟩ := by decide
  have hbase := analyze_learner_baseline initAnalyzer (.text "hello".toList) none
  have hseed : (update_baseline initAnalyzer.learner
      (computeStats (parse_robust (.text "hello".toList)).1)).baseline_stats =
      some (seedBaseline (computeStats (parse_robust (.text "hello".toList)).1)) := by
    rw [show initAnalyzer.learner = initLearner from rfl]
    rfl
  have hdrift := detect_seed_self
    (computeStats (parse_robust (.text "hello".toList)).1)
    (analyze initAnalyzer (.text "hello".toList) none).1.learner
    (by rw [hbase.1, hseed]) hbase.2
  have htot : totalEvents (⟨1, 0, 0, 0, 0, 0, 0, 0, 0, 0⟩ : LogStats) = 1 := by
    simp [totalEvents]
  have hthr1 : (analyze initAnalyzer (.text "hello".toList) none).1.optimizer.thresholds.error_rate
      = 9/200 := by
    show (optimize_thresholds initOptimizer
      (computeStats (parse_robust (.text "hello".toList)).1)).thresholds.error_rate = 9/200
    unfold optimize_thresholds optimizeWithRates
    dsimp only
    rw [hstats, htot]
    rw [show initOptimizer.thresholds.error_rate = 1/20 from rfl,
        show initOptimizer.learning_rate = 1/10 from rfl]
    rw [if_neg (by norm_num), if_pos (by norm_num)]
    rw [max_eq_left (by norm_num)]
    norm_num
  have hlr1 : (analyze initAnalyzer (.text "hello".toList) none).1.optimizer.learning_rate
      = 1/10 := rfl
  refine ⟨rfl, ?_, hthr1, ?_, by norm_num⟩
  · show (detect_distribution_drift
      (analyze initAnalyzer (.text "hello".toList) none).1.learner
      (computeStats (parse_robust (.text "hello".toList)).1)).1 = false
    rw [hdrift]
  · show (optimize_thresholds
      (analyze initAnalyzer (.text "hello".toList) none).1.optimizer
      (computeStats (parse_robust (.text "hello".toList)).1)).thresholds.error_rate
      = 81/2000
    unfold optimize_thresholds optimizeWithRates
    dsimp only
    rw [hstats, htot, hthr1, hlr1]
    rw [if_neg (by norm_num), if_pos (by norm_num)]
    rw [max_eq_left (by norm_num)]
    norm_num

/-- C6 amended: starting from a fresh engine, for two consecutive `analyze`
calls on the same content (hence identical extracted statistics), the second
call reports `is_drifting = false` with drift score `0`; the `error_rate`
threshold is unchanged by the second call *whenever* the observed error rate
lies inside the ratchet band `[thr/2, 2*thr]` around the threshold value
after the first call (outside the band the ratchet moves it again, as the
counterexample shows). -/
theorem c6_second_call_amended (content : List Char) :
    (analyze (analyze initAnalyzer (.text content) none).1
        (.text content) none).2.stats =
        (analyze initAnalyzer (.text content) none).2.stats ∧
      (analyze (analyze initAnalyzer (.text content) none).1
        (.text content) none).2.drift = (false, 0) ∧
      ((analyze initAnalyzer (.text content) none).1.optimizer.thresholds.error_rate
            * (1/2) ≤
          ((computeStats (parse_robust (.text content)).1).error_count : ℚ) /
            totalEvents (computeStats (parse_robust (.text content)).1) →
        ((computeStats (parse_robust (.text content)).1).error_count : ℚ) /
            totalEvents (computeStats (parse_robust (.text content)).1) ≤
          (analyze initAnalyzer (.text content) none).1.optimizer.thresholds.error_rate
            * 2 →
        (analyze (analyze initAnalyzer (.text content) none).1
            (.text content) none).1.optimizer.thresholds.error_rate =
          (analyze initAnalyzer (.text content) none).1.optimizer.thresholds.error_rate) := by
  have hbase := analyze_learner_baseline initAnalyzer (.text content) none
  have hseed : (update_baseline initAnalyzer.learner
      (computeStats (parse_robust (.text content)).1)).baseline_stats =
      some (seedBaseline (computeStats (parse_robust (.text content)).1)) := rfl
  refine ⟨rfl, ?_, ?_⟩
  · exact detect_seed_self _ _ (by rw [hbase.1, hseed]) hbase.2
  · intro h1 h2
    exact optimize_in_band _ _ h1 h2

/-- The witness content for C6: twenty lines, one containing `error`, so the
observed error rate `0.05` sits inside the ratchet band of the (unchanged)
threshold `0.05`. -/
def c6Content : List Char :=
  pyJoin '\n' ("error".toList :: List.replicate 19 "x".toList)

/-- Witness for C6's amended claim: on `c6Content` the band hypotheses hold
and the error threshold is indeed unchanged by the second call. -/
theorem c6_second_call_amended_witness :
    (analyze (analyze initAnalyzer (.text c6Content) none).1
        (.text c6Content) none).1.optimizer.thresholds.error_rate =
      (analyze initAnalyzer (.text c6Content) none).1.optimizer.thresholds.error_rate := by
  have hstats : computeStats (parse_robust (.text c6Content)).1 =
      ⟨20, 1, 0, 0, 0, 0, 0, 0, 0, 0⟩ := by decide
  have htot : totalEvents (⟨20, 1, 0, 0, 0, 0, 0, 0, 0, 0⟩ : LogStats) = 20 := by
    simp [totalEvents]
  have hthr : (analyze initAnalyzer (.text c6Content) none).1.optimizer.thresholds.error_rate
      = 1/20 := by
    show (optimize_thresholds initOptimizer
      (computeStats (parse_robust (.text c6Content)).1)).thresholds.error_rate = 1/20
    unfold optimize_thresholds optimizeWithRates
    dsimp only
    rw [hstats, htot,
        show initOptimizer.thresholds.error_rate = 1/20 from rfl]
    rw [if_neg (by norm_num), if_neg (by norm_num)]
  have her : ((computeStats (parse_robust (.text c6Content)).1).error_count : ℚ) /
      totalEvents (computeStats (parse_robust (.text c6Content)).1) = 1/20 := by
    rw [hstats, htot]
    norm_num
  exact (c6_second_call_amended c6Content).2.2
    (by rw [hthr, her]; norm_num) (by rw [hthr, her]; norm_num)

/-! ## C5: the ssh/failed scenario -/

lemma analyze_stats_eq (st : AnalyzerState) (content : RawInput)
    (feedback : Option Feedback) :
    (analyze st content feedback).2.stats = computeStats (parse_robust content).1 :=
  rfl

lemma analyze_severity_eq (st : AnalyzerState) (content : RawInput)
    (feedback : Option Feedback) :
    (analyze st content feedback).2.severity =
      (get_adaptive_severity
        (optimize_thresholds st.optimizer (computeStats (parse_robust content).1))
        (computeStats (parse_robust content).1)).1 := rfl

lemma analyze_confidence_eq (st : AnalyzerState) (content : RawInput)
    (feedback : Option Feedback) :
    (analyze st content feedback).2.confidence =
      (get_adaptive_severity
        (optimize_thresholds st.optimizer (computeStats (parse_robust content).1))
        (computeStats (parse_robust content).1)).2 := rfl

/-- 120 non-blank lines: 60 containing `ssh`, 25 containing `failed`, 35
neutral; no line contains `error` or `warning`. -/
def c5Content : List Char :=
  pyJoin '\n' (List.replicate 60 "ssh".toList ++ List.replicate 25 "failed".toList
    ++ List.replicate 35 "x".toList)

set_option maxRecDepth 8000 in
lemma c5_stats : computeStats (parse_robust (.text c5Content)).1 =
    ⟨120, 0, 0, 25, 0, 60, 0, 0, 0, 0⟩ := by decide

lemma c5_sevconf : get_adaptive_severity
    (optimize_thresholds initAnalyzer.optimizer
      (computeStats (parse_robust (.text c5Content)).1))
    (computeStats (parse_robust (.text c5Content)).1) = (Severity.Low, 0) := by
  have htot : totalEvents (⟨120, 0, 0, 25, 0, 60, 0, 0, 0, 0⟩ : LogStats) = 120 := by
    simp [totalEvents]
  have hthr : (optimize_thresholds initAnalyzer.optimizer
      (⟨120, 0, 0, 25, 0, 60, 0, 0, 0, 0⟩ : LogStats)).thresholds.error_rate
      = 9/200 := by
    unfold optimize_thresholds optimizeWithRates
    dsimp only
    rw [htot, show initAnalyzer.optimizer.thresholds.error_rate = 1/20 from rfl,
        show initAnalyzer.optimizer.learning_rate = 1/10 from rfl]
    rw [if_neg (by norm_num), if_pos (by norm_num)]
    rw [max_eq_left (by norm_num)]
    norm_num
  have hwarn : (optimize_thresholds initAnalyzer.optimizer
      (⟨120, 0, 0, 25, 0, 60, 0, 0, 0, 0⟩ : LogStats)).thresholds.warning_rate
      = 1/10 := rfl
  rw [c5_stats]
  unfold get_adaptive_severity
  dsimp only
  rw [htot, hthr, hwarn]
  unfold severityFromScore
  rw [if_neg (by norm_num), if_neg (by norm_num), if_neg (by norm_num)]
  norm_num

/-- C5 counterexample: on 120 non-blank lines with exactly 60 `ssh` and 25
`failed` lines (and no `error`/`warning` lines), `analyze` reports
`ssh_count = 60` and `failed_count = 25` as claimed, but the severity is
`Low` with confidence `0` — not High/Critical with confidence above 0.8 —
because the severity score uses only the error and warning rates. -/
theorem c5_counterexample :
    (analyze initAnalyzer (.text c5Content) none).2.stats =
        ⟨120, 0, 0, 25, 0, 60, 0, 0, 0, 0⟩ ∧
      (analyze initAnalyzer (.text c5Content) none).2.severity = Severity.Low ∧
      (analyze initAnalyzer (.text c5Content) none).2.confidence = 0 := by
  refine ⟨?_, ?_, ?_⟩
  · rw [analyze_stats_eq, c5_stats]
  · rw [analyze_severity_eq, c5_sevconf]
  · rw [analyze_confidence_eq, c5_sevconf]

/-- C5 amended: `analyze` on the 120-line ssh/failed input yields
`ssh_count = 60`, `failed_count = 25` and `total_lines = 120`, but severity
and confidence depend only on `total_lines`, `error_count` and
`warning_count` (zeroing every other statistic leaves
`get_adaptive_severity` unchanged); with no error/warning lines the severity
is `Low` with confidence `0`. -/
theorem c5_severity_amended :
    (∀ (s : OptimizerState) (stats : LogStats),
        get_adaptive_severity s stats =
          get_adaptive_severity s
            { total_lines := stats.total_lines, error_count := stats.error_count,
              warning_count := stats.warning_count, failed_count := 0,
              timeout_count := 0, ssh_count := 0, auth_count := 0,
              connection_count := 0, denied_count := 0, accepted_count := 0 }) ∧
      (analyze initAnalyzer (.text c5Content) none).2.stats.ssh_count = 60 ∧
      (analyze initAnalyzer (.text c5Content) none).2.stats.failed_count = 25 ∧
      (analyze initAnalyzer (.text c5Content) none).2.stats.total_lines = 120 ∧
      (analyze initAnalyzer (.text c5Content) none).2.severity = Severity.Low ∧
      (analyze initAnalyzer (.text c5Content) none).2.confidence = 0 := by
  refine ⟨fun s stats => rfl, ?_, ?_, ?_, ?_, ?_⟩
  · rw [analyze_stats_eq, c5_stats]
  · rw [analyze_stats_eq, c5_stats]
  · rw [analyze_stats_eq, c5_stats]
  · rw [analyze_severity_eq, c5_sevconf]
  · rw [analyze_confidence_eq, c5_sevconf]
